import Mathlib

/-! portfolio-grpc: metrics sink, request tracker, repositories and handlers

A shallow embedding of `internal/client/statsd` (statsd.go, nop.go), of the
metrics decorators and the database repositories in `internal/repositories`, of
`internal/utils/timetopb.go`, of `parseMethodName` in `internal/interceptors` and
of the handlers in `internal/server/server.go`, with the properties the
specification states about them.

Conventions of the embedding

* A Go `string` is its sequence of bytes, `GoString = List Nat` (every byte is
  below 256; the functions below never do arithmetic on a byte, only compare it).
* A Go `error` value is a `GoError`; a nil error is `none`.
* Code with effects (the UDP connection, the clock, the database) passes its
  state explicitly; interfaces are records of functions over that state.
* Types and functions of other packages (`time`, `database/sql`,
  `encoding/json`, the generated `portfolio_grpc`) are modelled by what the code
  uses of them, or taken as parameters.
-/

/-! ## Go strings and errors -/

/-- A Go string: the sequence of its bytes. -/
abbrev GoString := List Nat

/-- The bytes (UTF-8) of a string literal of the source. -/
def str (s : String) : GoString :=
  s.toList.flatMap fun c => (String.utf8EncodeChar c).map UInt8.toNat

/-- Go error values: `errors.New(msg)` (the number tells apart the variables
holding such values) and `fmt.Errorf(pre + "%w", inner)`. -/
inductive GoError where
  | new (id : Nat) (msg : GoString)
  | wrapf (pre : GoString) (inner : GoError)
  deriving DecidableEq, Repr

/-- The method `Error()` of an error value. -/
def GoError.Error : GoError → GoString
  | .new _ msg => msg
  | .wrapf pre inner => pre ++ inner.Error

/-- Go `strings.Join(elems, sep)`. -/
def stringsJoin : List GoString → GoString → GoString
  | [], _ => []
  | [a], _ => a
  | a :: b :: rest, sep => a ++ sep ++ stringsJoin (b :: rest) sep

/-- Go `%d` of an `int64`: an optional minus sign and the decimal digits. -/
def formatInt (v : Int) : GoString :=
  match v with
  | .ofNat n => (Nat.toDigits 10 n).map Char.toNat
  | .negSucc n => 45 :: (Nat.toDigits 10 (n + 1)).map Char.toNat

/-- Width in bytes of the first character of a non-empty string, the way Go
decodes UTF-8 (`utf8.DecodeRuneInString`): a well-formed sequence of 1 to 4
bytes is one character, any other byte is a character of width 1. -/
def runeWidth (s : GoString) : Nat :=
  match s with
  | [] => 0
  | s0 :: rest =>
    if s0 < 0x80 then 1
    else if s0 < 0xC2 then 1
    else if s0 < 0xE0 then
      match rest with
      | s1 :: _ => if 0x80 ≤ s1 ∧ s1 ≤ 0xBF then 2 else 1
      | _ => 1
    else if s0 < 0xF0 then
      let lo := if s0 = 0xE0 then 0xA0 else 0x80
      let hi := if s0 = 0xED then 0x9F else 0xBF
      match rest with
      | s1 :: s2 :: _ =>
        if lo ≤ s1 ∧ s1 ≤ hi ∧ 0x80 ≤ s2 ∧ s2 ≤ 0xBF then 3 else 1
      | _ => 1
    else if s0 < 0xF5 then
      let lo := if s0 = 0xF0 then 0x90 else 0x80
      let hi := if s0 = 0xF4 then 0x8F else 0xBF
      match rest with
      | s1 :: s2 :: s3 :: _ =>
        if lo ≤ s1 ∧ s1 ≤ hi ∧ 0x80 ≤ s2 ∧ s2 ≤ 0xBF ∧ 0x80 ≤ s3 ∧ s3 ≤ 0xBF then 4 else 1
      | _ => 1
    else 1

/-- The first `n` characters of a string (the whole string when it has fewer). -/
def firstChars : Nat → GoString → GoString
  | 0, _ => []
  | _ + 1, [] => []
  | n + 1, c :: cs =>
    (c :: cs).take (runeWidth (c :: cs)) ++ firstChars n ((c :: cs).drop (runeWidth (c :: cs)))

/-- The characters of a string, in order, each as its bytes; `fuel` bounds the
number of characters taken, and the length in bytes is always enough. -/
def splitChars : Nat → GoString → List GoString
  | 0, _ => []
  | _ + 1, [] => []
  | fuel + 1, c :: cs =>
    (c :: cs).take (runeWidth (c :: cs)) ::
      splitChars fuel ((c :: cs).drop (runeWidth (c :: cs)))

/-- The characters of a string. -/
def chars (s : GoString) : List GoString :=
  splitChars s.length s

namespace statsd

/-! ## statsd.go: sanitizeTag -/

/-- One iteration of the loop of `sanitizeTag`, on the byte `c = input[i]`:
bytes for a-z, A-Z, 0-9, `-`, `_`, `.` are appended, a space or a colon appends
`_`, any other byte appends nothing. -/
def sanitizeTag.step (result : GoString) (c : Nat) : GoString :=
  if (97 ≤ c ∧ c ≤ 122) ∨ (65 ≤ c ∧ c ≤ 90) ∨ (48 ≤ c ∧ c ≤ 57) ∨ c = 45 ∨ c = 95 ∨ c = 46 then
    result ++ [c]
  else if c = 32 ∨ c = 58 then
    result ++ [95]
  else
    result

/-- The function `sanitizeTag` of statsd.go. -/
def sanitizeTag (input : GoString) : GoString :=
  -- Take first 50 characters
  let input := if input.length > 50 then input.take 50 else input
  -- Replace invalid characters with underscores
  let result := input.foldl sanitizeTag.step []
  if result.length = 0 then str "unknown" else result

/-! ### The specification's wording of `sanitize` -/

/-- What the specification emits for a one-byte character: the character itself
when it is in `[A-Za-z0-9]` or one of `-`, `_`, `.`; `_` for a space or a colon;
nothing otherwise. -/
def specChar (c : Nat) : GoString :=
  if (c ∈ (str "abcdefghijklmnopqrstuvwxyzABCDEFGHIJKLMNOPQRSTUVWXYZ0123456789-_.")) then [c]
  else if c ∈ str " :" then str "_"
  else []

/-- What the specification emits for one character, given as its bytes: a
character of several bytes is none of the kept or replaced characters, so it
emits nothing. -/
def specOfChar (ch : GoString) : GoString :=
  match ch with
  | [c] => specChar c
  | _ => []

/-- The specification's `sanitize` for inputs that need no truncation: the scan
of the characters from left to right, and "unknown" when it leaves nothing. -/
def specSanitize (input : GoString) : GoString :=
  let s := (chars input).flatMap specOfChar
  if s = [] then str "unknown" else s

/-- An input of 53 characters in 55 bytes: a two-byte character (`é`), 48 times
`a`, then a colon, a space, `é` and `!`. -/
def multiByteInput : GoString :=
  [195, 169] ++ List.replicate 48 97 ++ str ": é!"

/-- A byte allowed in a tag value: `[A-Za-z0-9]`, `-`, `_` or `.`. -/
def safeTagByte (c : Nat) : Prop :=
  c ∈ str "abcdefghijklmnopqrstuvwxyzABCDEFGHIJKLMNOPQRSTUVWXYZ0123456789-_."

instance : DecidablePred safeTagByte := fun c => by unfold safeTagByte; exact inferInstance

/-! ## statsd.go: connection, clock and client -/

/-- The wire type of a metric: `c` for a counter, `ms` for a timing. -/
inductive MetricType where
  | counter
  | timing
  deriving DecidableEq, Repr

/-- One call of `conn.Write`: the bytes written, labelled with the kind of the
client method that built them (`Count` or `Timing`). The label is bookkeeping of
the model; only `payload` goes on the wire. -/
structure Packet where
  typ : MetricType
  payload : GoString
  deriving DecidableEq, Repr

/-- The `net.Conn` of a client. `Write k b` is the error that the write of the
bytes `b` returns when `k` writes came before it (`none` is a nil error), so a
connection may fail any of its writes; `Close` is the error of `Close()`. -/
structure Conn where
  Write : Nat → GoString → Option GoError
  Close : Option GoError

/-- What the statsd package acts on: the clock (`clock k` is the value of the
`k`-th reading, in nanoseconds; `reads` counts the readings taken) and the
packets handed to `conn.Write`, oldest first. -/
structure World where
  clock : Nat → Int
  reads : Nat
  sent : List Packet

/-- Go `time.Now()`. -/
def timeNow (w : World) : Int × World :=
  (w.clock w.reads, { w with reads := w.reads + 1 })

/-- Go `Time.Sub`: the difference as a `Duration` (int64 nanoseconds),
saturated at the largest and smallest duration. -/
def timeSub (t u : Int) : Int :=
  if t - u > 2 ^ 63 - 1 then 2 ^ 63 - 1
  else if t - u < -(2 ^ 63) then -(2 ^ 63)
  else t - u

/-- Go `time.Since(t)`, which is `time.Now().Sub(t)`. -/
def timeSince (t : Int) (w : World) : Int × World :=
  let (now, w) := timeNow w
  (timeSub now t, w)

/-- Go `Duration.Milliseconds()`: `int64(d) / 1e6`, Go's integer division. -/
def Milliseconds (d : Int) : Int :=
  Int.tdiv d 1000000

/-- The struct `client`: its connection and its metric name prefix (the field
`prefix` of the source). -/
structure client where
  conn : Conn
  pfx : GoString

/-- The method `send`: one `conn.Write` of the metric, whose error is returned.
`typ` only labels the packet in the log. -/
def client.send (c : client) (typ : MetricType) (metric : GoString) (w : World) :
    Option GoError × World :=
  (c.conn.Write w.sent.length metric, { w with sent := w.sent ++ [⟨typ, metric⟩] })

/-- The method `Count`. -/
def client.Count (c : client) (name : GoString) (value : Int) (tags : List GoString)
    (w : World) : Option GoError × World :=
  let metric := c.pfx ++ str "." ++ name ++ str ":" ++ formatInt value ++ str "|c"
  let metric := if tags.length > 0 then metric ++ (str "|#" ++ stringsJoin tags (str ",")) else metric
  let metric := metric ++ str "\n"
  c.send .counter metric w

/-- The method `Increment`. -/
def client.Increment (c : client) (name : GoString) (tags : List GoString) (w : World) :
    Option GoError × World :=
  c.Count name 1 tags w

/-- The method `Timing`; `duration` is a `time.Duration`, in nanoseconds. -/
def client.Timing (c : client) (name : GoString) (duration : Int) (tags : List GoString)
    (w : World) : Option GoError × World :=
  let ms := Milliseconds duration
  let metric := c.pfx ++ str "." ++ name ++ str ":" ++ formatInt ms ++ str "|ms"
  let metric := if tags.length > 0 then metric ++ (str "|#" ++ stringsJoin tags (str ",")) else metric
  let metric := metric ++ str "\n"
  c.send .timing metric w

/-- The method `Close` (the connection of a client built by `New` is not nil). -/
def client.Close (c : client) (w : World) : Option GoError × World :=
  (c.conn.Close, w)

/-! ## statsd.go: the request tracker -/

/-- The struct `requestTracker`. -/
structure requestTracker where
  client : client
  serviceName : GoString
  methodName : GoString
  startTime : Int

/-- The method `metricName`: `fmt.Sprintf("api.%s.%s.%s", ...)`. -/
def requestTracker.metricName (rt : requestTracker) (suffix : GoString) : GoString :=
  str "api." ++ rt.serviceName ++ str "." ++ rt.methodName ++ str "." ++ suffix

/-- The method `Start` of the client: builds the tracker and sends the
"started" counter, whose error is dropped. -/
def client.Start (c : client) (serviceName methodName : GoString) (w : World) :
    requestTracker × World :=
  let (now, w) := timeNow w
  let tracker : requestTracker :=
    { client := c, serviceName := serviceName, methodName := methodName, startTime := now }
  let (_, w) := c.Increment (tracker.metricName (str "started")) [] w
  (tracker, w)

/-- The method `Succeeded`. -/
def requestTracker.Succeeded (rt : requestTracker) (w : World) : Option GoError × World :=
  let (duration, w) := timeSince rt.startTime w
  match rt.client.Increment (rt.metricName (str "succeeded")) [] w with
  | (some err, w) => (some err, w)
  | (none, w) => rt.client.Timing (rt.metricName (str "timing")) duration [str "status:success"] w

/-- The method `Failed`. -/
def requestTracker.Failed (rt : requestTracker) (w : World) : Option GoError × World :=
  let (duration, w) := timeSince rt.startTime w
  match rt.client.Increment (rt.metricName (str "failed")) [] w with
  | (some err, w) => (some err, w)
  | (none, w) => rt.client.Timing (rt.metricName (str "timing")) duration [str "status:failed"] w

/-- The method `FailedWithError`; `err` is `none` for a nil error. -/
def requestTracker.FailedWithError (rt : requestTracker) (err : Option GoError) (w : World) :
    Option GoError × World :=
  let (duration, w) := timeSince rt.startTime w
  let errorType :=
    match err with
    | some e => sanitizeTag e.Error
    | none => str "unknown"
  match rt.client.Increment (rt.metricName (str "failed")) [str "error:" ++ errorType] w with
  | (some err, w) => (some err, w)
  | (none, w) =>
    rt.client.Timing (rt.metricName (str "timing")) duration
      [str "status:failed", str "error:" ++ errorType] w

/-- The method `Finished`. -/
def requestTracker.Finished (rt : requestTracker) (w : World) : Option GoError × World :=
  let (duration, w) := timeSince rt.startTime w
  rt.client.Timing (rt.metricName (str "timing")) duration [str "status:finished"] w

/-! ## statsd.go: the interfaces `Client` and `RequestTracker` -/

/-- The interface `RequestTracker`, over any state `W` its methods act on. -/
structure RequestTracker (W : Type) where
  Succeeded : W → Option GoError × W
  Failed : W → Option GoError × W
  FailedWithError : Option GoError → W → Option GoError × W
  Finished : W → Option GoError × W

/-- The interface `Client`. -/
structure Client (W : Type) where
  Increment : GoString → List GoString → W → Option GoError × W
  Count : GoString → Int → List GoString → W → Option GoError × W
  Timing : GoString → Int → List GoString → W → Option GoError × W
  Start : GoString → GoString → W → RequestTracker W × W
  Close : W → Option GoError × W

/-- A `*requestTracker` as a `RequestTracker`. -/
def requestTracker.toRequestTracker (rt : requestTracker) : RequestTracker World where
  Succeeded := rt.Succeeded
  Failed := rt.Failed
  FailedWithError := rt.FailedWithError
  Finished := rt.Finished

/-- A `*client` as a `Client`. -/
def client.toClient (c : client) : Client World where
  Increment := c.Increment
  Count := c.Count
  Timing := c.Timing
  Start := fun serviceName methodName w =>
    let (rt, w) := c.Start serviceName methodName w
    (rt.toRequestTracker, w)
  Close := c.Close

/-! ## nop.go -/

/-- The type `nopRequestTracker` with its four methods. -/
def nopRequestTracker (W : Type) : RequestTracker W where
  Finished := fun w => (none, w)
  Succeeded := fun w => (none, w)
  Failed := fun w => (none, w)
  FailedWithError := fun _ w => (none, w)

/-- The type `nopClient` with its five methods. -/
def nopClient (W : Type) : Client W where
  Increment := fun _ _ w => (none, w)
  Count := fun _ _ _ w => (none, w)
  Timing := fun _ _ _ w => (none, w)
  Start := fun _ _ w => (nopRequestTracker W, w)
  Close := fun w => (none, w)

/-- The function `Nop`. -/
def Nop (W : Type) : Client W :=
  nopClient W

/-! ## What an operation sent, and the specification's wire format -/

/-- The packets written between the state `before` and the later state `after`. -/
def issued (before after : World) : List Packet :=
  after.sent.drop before.sent.length

/-- How many of the packets are of the given type. -/
def countOf (t : MetricType) (ps : List Packet) : Nat :=
  ps.countP fun p => p.typ = t

/-- The specification's metric line, `prefix.name:value|type[|#tag1,tag2]`, where
the tag part is present exactly when there is a tag, and one newline ends the
line. -/
def wireLine (pfx name : GoString) (value : Int) (typ : GoString) (tags : List GoString) :
    GoString :=
  pfx ++ str "." ++ name ++ str ":" ++ formatInt value ++ str "|" ++ typ ++
    (if tags = [] then [] else str "|#" ++ stringsJoin tags (str ",")) ++ str "\n"

/-- The four terminal operations of a tracker, as data. -/
inductive TrackerOp where
  | Succeeded
  | Failed
  | FailedWithError (err : Option GoError)
  | Finished

/-- Calling the terminal operation `op` on the tracker. -/
def requestTracker.call (rt : requestTracker) : TrackerOp → World → Option GoError × World
  | .Succeeded => rt.Succeeded
  | .Failed => rt.Failed
  | .FailedWithError err => rt.FailedWithError err
  | .Finished => rt.Finished

/-- A connection all of whose writes fail. -/
def refusingConn : Conn where
  Write := fun _ _ => some (.new 0 (str "write: connection refused"))
  Close := none

/-- A connection all of whose writes succeed. -/
def healthyConn : Conn where
  Write := fun _ _ => none
  Close := none

/-- A state in which nothing was sent and the clock reads `k` milliseconds at
its `k`-th reading. -/
def freshWorld : World where
  clock := fun k => 1000000 * k
  reads := 0
  sent := []

/-- The counter packet of a tracker for a name suffix and tags, value 1. -/
def requestTracker.counterPacket (rt : requestTracker) (suffix : GoString)
    (tags : List GoString) : Packet :=
  ⟨.counter, wireLine rt.client.pfx (rt.metricName suffix) 1 (str "c") tags⟩

/-- The timing packet of a tracker for the tags, when the operation starts in
the state `w`: the value is the whole milliseconds between the tracker's start
time and the clock reading the operation takes. -/
def requestTracker.timingPacket (rt : requestTracker) (w : World) (tags : List GoString) :
    Packet :=
  ⟨.timing, wireLine rt.client.pfx (rt.metricName (str "timing"))
    (Int.tdiv (timeSub (w.clock w.reads) rt.startTime) 1000000) (str "ms") tags⟩

/-- Whether the connection of the tracker returns no error for the write of the
packet `p` as the next write after the state `w`. -/
def requestTracker.accepts (rt : requestTracker) (w : World) (p : Packet) : Bool :=
  (rt.client.conn.Write w.sent.length p.payload).isNone

/-- The tag value `FailedWithError` derives from its argument. -/
def errorTag (err : Option GoError) : GoString :=
  match err with
  | some e => sanitizeTag e.Error
  | none => str "unknown"

/-- A tracker for `skills`/`GetSkill` on a connection that refuses every write. -/
def refusedTracker : requestTracker where
  client := { conn := refusingConn, pfx := str "portfolio_grpc" }
  serviceName := str "skills"
  methodName := str "GetSkill"
  startTime := 0

/-- The packet carries a metric of the tracker started for `subject` and
`operation` on a client with prefix `pfx`: its line starts with the prefix, the
segment `api`, the subject, the operation and one of the four suffixes, joined
by dots, and the colon that ends the metric name. -/
def namedFor (pfx subject operation : GoString) (p : Packet) : Prop :=
  ∃ suffix ∈ [str "started", str "succeeded", str "failed", str "timing"],
    ∃ rest : GoString,
      p.payload =
        pfx ++ str ".api." ++ subject ++ str "." ++ operation ++ str "." ++ suffix ++ str ":" ++ rest

/-- A client with the prefix of `main.go` on a connection that accepts every write. -/
def healthyClient : client where
  conn := healthyConn
  pfx := str "portfolio_grpc"

end statsd

namespace repositories

/-! ## repositories: the interfaces and the metrics decorators

`W` is the state the repository and the sink act on, `Ctx` is `context.Context`,
and `Skill`, `Experience`, `Education` are the generated record types of package
`portfolio_grpc`. A Go result `(value, error)` is a pair of options: `none` is a
nil slice, a nil pointer or a nil error. -/

/-- The interface `SkillsRepository`. -/
structure SkillsRepository (W Ctx Skill : Type) where
  ListSkills : Ctx → W → (Option (List Skill) × Option GoError) × W
  GetSkill : Ctx → Int → W → (Option Skill × Option GoError) × W

/-- The interface `ExperiencesRepository`. -/
structure ExperiencesRepository (W Ctx Experience : Type) where
  ListExperiences : Ctx → W → (Option (List Experience) × Option GoError) × W
  GetExperience : Ctx → Int → W → (Option Experience × Option GoError) × W

/-- The interface `EducationsRepository`. -/
structure EducationsRepository (W Ctx Education : Type) where
  ListEducations : Ctx → W → (Option (List Education) × Option GoError) × W
  GetEducation : Ctx → Int → W → (Option Education × Option GoError) × W

/-- The struct `skillsMetricsRepositoryImpl`. -/
structure skillsMetricsRepositoryImpl (W Ctx Skill : Type) where
  repo : SkillsRepository W Ctx Skill
  statsd : statsd.Client W

/-- The struct `experiencesMetricsRepositoryImpl`. -/
structure experiencesMetricsRepositoryImpl (W Ctx Experience : Type) where
  repo : ExperiencesRepository W Ctx Experience
  statsd : statsd.Client W

/-- The struct `educationsMetricsRepositoryImpl`. -/
structure educationsMetricsRepositoryImpl (W Ctx Education : Type) where
  repo : EducationsRepository W Ctx Education
  statsd : statsd.Client W

variable {W Ctx Skill Experience Education : Type}

/-- The method `ListSkills` of the decorator. The deferred `stat.Finished()`
runs when the function returns, on either path, after the result is fixed. -/
def skillsMetricsRepositoryImpl.ListSkills (s : skillsMetricsRepositoryImpl W Ctx Skill)
    (ctx : Ctx) (w : W) : (Option (List Skill) × Option GoError) × W :=
  let (stat, w) := s.statsd.Start (str "skills") (str "ListSkills") w
  let ((skills, err), w) := s.repo.ListSkills ctx w
  match err with
  | some err =>
    let (_, w) := stat.FailedWithError (some err) w
    let (_, w) := stat.Finished w
    ((none, some err), w)
  | none =>
    let (_, w) := stat.Succeeded w
    let (_, w) := stat.Finished w
    ((skills, none), w)

/-- The method `GetSkill` of the decorator. -/
def skillsMetricsRepositoryImpl.GetSkill (s : skillsMetricsRepositoryImpl W Ctx Skill)
    (ctx : Ctx) (id : Int) (w : W) : (Option Skill × Option GoError) × W :=
  let (stat, w) := s.statsd.Start (str "skills") (str "GetSkill") w
  let ((skill, err), w) := s.repo.GetSkill ctx id w
  match err with
  | some err =>
    let (_, w) := stat.FailedWithError (some err) w
    let (_, w) := stat.Finished w
    ((none, some err), w)
  | none =>
    let (_, w) := stat.Succeeded w
    let (_, w) := stat.Finished w
    ((skill, none), w)

/-- The method `ListExperiences` of the decorator. -/
def experiencesMetricsRepositoryImpl.ListExperiences
    (e : experiencesMetricsRepositoryImpl W Ctx Experience) (ctx : Ctx) (w : W) :
    (Option (List Experience) × Option GoError) × W :=
  let (stat, w) := e.statsd.Start (str "experiences") (str "ListExperiences") w
  let ((experiences, err), w) := e.repo.ListExperiences ctx w
  match err with
  | some err =>
    let (_, w) := stat.FailedWithError (some err) w
    let (_, w) := stat.Finished w
    ((none, some err), w)
  | none =>
    let (_, w) := stat.Succeeded w
    let (_, w) := stat.Finished w
    ((experiences, none), w)

/-- The method `GetExperience` of the decorator. -/
def experiencesMetricsRepositoryImpl.GetExperience
    (e : experiencesMetricsRepositoryImpl W Ctx Experience) (ctx : Ctx) (id : Int) (w : W) :
    (Option Experience × Option GoError) × W :=
  let (stat, w) := e.statsd.Start (str "experiences") (str "GetExperience") w
  let ((experience, err), w) := e.repo.GetExperience ctx id w
  match err with
  | some err =>
    let (_, w) := stat.FailedWithError (some err) w
    let (_, w) := stat.Finished w
    ((none, some err), w)
  | none =>
    let (_, w) := stat.Succeeded w
    let (_, w) := stat.Finished w
    ((experience, none), w)

/-- The method `ListEducations` of the decorator. -/
def educationsMetricsRepositoryImpl.ListEducations
    (e : educationsMetricsRepositoryImpl W Ctx Education) (ctx : Ctx) (w : W) :
    (Option (List Education) × Option GoError) × W :=
  let (stat, w) := e.statsd.Start (str "educations") (str "ListEducations") w
  let ((educations, err), w) := e.repo.ListEducations ctx w
  match err with
  | some err =>
    let (_, w) := stat.FailedWithError (some err) w
    let (_, w) := stat.Finished w
    ((none, some err), w)
  | none =>
    let (_, w) := stat.Succeeded w
    let (_, w) := stat.Finished w
    ((educations, none), w)

/-- The method `GetEducation` of the decorator. -/
def educationsMetricsRepositoryImpl.GetEducation
    (e : educationsMetricsRepositoryImpl W Ctx Education) (ctx : Ctx) (id : Int) (w : W) :
    (Option Education × Option GoError) × W :=
  let (stat, w) := e.statsd.Start (str "educations") (str "GetEducation") w
  let ((education, err), w) := e.repo.GetEducation ctx id w
  match err with
  | some err =>
    let (_, w) := stat.FailedWithError (some err) w
    let (_, w) := stat.Finished w
    ((none, some err), w)
  | none =>
    let (_, w) := stat.Succeeded w
    let (_, w) := stat.Finished w
    ((education, none), w)

/-- The function `newSkillsMetricsRepository`. -/
def newSkillsMetricsRepository (repo : SkillsRepository W Ctx Skill)
    (statsdClient : statsd.Client W) : SkillsRepository W Ctx Skill where
  ListSkills := skillsMetricsRepositoryImpl.ListSkills { repo := repo, statsd := statsdClient }
  GetSkill := skillsMetricsRepositoryImpl.GetSkill { repo := repo, statsd := statsdClient }

/-- The function `newExperiencesMetricsRepository`. -/
def newExperiencesMetricsRepository (repo : ExperiencesRepository W Ctx Experience)
    (statsdClient : statsd.Client W) : ExperiencesRepository W Ctx Experience where
  ListExperiences :=
    experiencesMetricsRepositoryImpl.ListExperiences { repo := repo, statsd := statsdClient }
  GetExperience :=
    experiencesMetricsRepositoryImpl.GetExperience { repo := repo, statsd := statsdClient }

/-- The function `newEducationsMetricsRepository`. -/
def newEducationsMetricsRepository (repo : EducationsRepository W Ctx Education)
    (statsdClient : statsd.Client W) : EducationsRepository W Ctx Education where
  ListEducations :=
    educationsMetricsRepositoryImpl.ListEducations { repo := repo, statsd := statsdClient }
  GetEducation :=
    educationsMetricsRepositoryImpl.GetEducation { repo := repo, statsd := statsdClient }

/-! ## Observing the calls a decorator makes

To state which calls reach the sink, its trackers and the wrapped repository,
any sink and any repository are run under observation: each call is appended to
a log and then passed on unchanged. -/

/-- A call on the sink, on a tracker it returned, or on the wrapped repository
(with the method name and, for a get, the identifier). -/
inductive Call where
  | Increment (name : GoString) (tags : List GoString)
  | Count (name : GoString) (value : Int) (tags : List GoString)
  | Timing (name : GoString) (duration : Int) (tags : List GoString)
  | Start (serviceName methodName : GoString)
  | Close
  | Succeeded
  | Failed
  | FailedWithError (err : Option GoError)
  | Finished
  | Wrapped (method : GoString) (id : Option Int)
  deriving DecidableEq, Repr

/-- Runs `f` on the state and appends `call` to the log. -/
def logged {α : Type} (call : Call) (f : W → α × W) (s : W × List Call) : α × (W × List Call) :=
  ((f s.1).1, ((f s.1).2, s.2 ++ [call]))

/-- The tracker `t` under observation. -/
def observeTracker (t : statsd.RequestTracker W) : statsd.RequestTracker (W × List Call) where
  Succeeded := logged .Succeeded t.Succeeded
  Failed := logged .Failed t.Failed
  FailedWithError := fun err => logged (.FailedWithError err) (t.FailedWithError err)
  Finished := logged .Finished t.Finished

/-- The sink `c` under observation; the trackers it returns are observed too. -/
def observeClient (c : statsd.Client W) : statsd.Client (W × List Call) where
  Increment := fun name tags => logged (.Increment name tags) (c.Increment name tags)
  Count := fun name value tags => logged (.Count name value tags) (c.Count name value tags)
  Timing := fun name d tags => logged (.Timing name d tags) (c.Timing name d tags)
  Start := fun serviceName methodName s =>
    (observeTracker (c.Start serviceName methodName s.1).1,
      ((c.Start serviceName methodName s.1).2, s.2 ++ [.Start serviceName methodName]))
  Close := logged .Close c.Close

/-- A skills repository under observation. -/
def observeSkills (r : SkillsRepository W Ctx Skill) :
    SkillsRepository (W × List Call) Ctx Skill where
  ListSkills := fun ctx => logged (.Wrapped (str "ListSkills") none) (r.ListSkills ctx)
  GetSkill := fun ctx id => logged (.Wrapped (str "GetSkill") (some id)) (r.GetSkill ctx id)

/-- An experiences repository under observation. -/
def observeExperiences (r : ExperiencesRepository W Ctx Experience) :
    ExperiencesRepository (W × List Call) Ctx Experience where
  ListExperiences := fun ctx =>
    logged (.Wrapped (str "ListExperiences") none) (r.ListExperiences ctx)
  GetExperience := fun ctx id =>
    logged (.Wrapped (str "GetExperience") (some id)) (r.GetExperience ctx id)

/-- An educations repository under observation. -/
def observeEducations (r : EducationsRepository W Ctx Education) :
    EducationsRepository (W × List Call) Ctx Education where
  ListEducations := fun ctx =>
    logged (.Wrapped (str "ListEducations") none) (r.ListEducations ctx)
  GetEducation := fun ctx id =>
    logged (.Wrapped (str "GetEducation") (some id)) (r.GetEducation ctx id)

/-- The tracker call a decorator makes for the error of the wrapped call:
`FailedWithError(err)` for a non-nil `err`, `Succeeded()` for nil. -/
def outcomeCall (err : Option GoError) : Call :=
  match err with
  | some e => .FailedWithError (some e)
  | none => .Succeeded

end repositories


namespace repositories

variable {W S S2 D Ctx Skill Experience Education : Type}

/-! ## The decorator pattern, and a sink and a repository with states of their own -/

/-- The body shared by the six decorated methods: start a tracker for the
subject and the operation, make the wrapped call, report `FailedWithError(err)`
or `Succeeded()` and, on the way out, `Finished()`. -/
def decorated {α : Type} (sink : statsd.Client W) (subject operation : GoString)
    (call : W → (Option α × Option GoError) × W) (w : W) : (Option α × Option GoError) × W :=
  let (stat, w) := sink.Start subject operation w
  let ((value, err), w) := call w
  match err with
  | some err =>
    let (_, w) := stat.FailedWithError (some err) w
    let (_, w) := stat.Finished w
    ((none, some err), w)
  | none =>
    let (_, w) := stat.Succeeded w
    let (_, w) := stat.Finished w
    ((value, none), w)

/-- The outcome of a wrapped call as a decorator passes it on: the error alone
when there is one, the value alone when there is none. -/
def passedOn {α : Type} (r : Option α × Option GoError) : Option α × Option GoError :=
  match r.2 with
  | some err => (none, some err)
  | none => (r.1, none)

/-- A step on the state `S` as a step on the pair of states that leaves the
second state alone. -/
def onFirst {α : Type} (f : S → α × S) (x : S × D) : α × (S × D) :=
  ((f x.1).1, ((f x.1).2, x.2))

/-- A step on the state `D` as a step on the pair of states that leaves the
first state alone. -/
def onSecond {α : Type} (f : D → α × D) (x : S × D) : α × (S × D) :=
  ((f x.2).1, (x.1, (f x.2).2))

/-- A tracker with state `S`, beside a state `D` it does not touch. -/
def trackerBeside (D : Type) (t : statsd.RequestTracker S) : statsd.RequestTracker (S × D) where
  Succeeded := onFirst t.Succeeded
  Failed := onFirst t.Failed
  FailedWithError := fun err => onFirst (t.FailedWithError err)
  Finished := onFirst t.Finished

/-- A sink with state `S`, beside a state `D` it does not touch. -/
def sinkBeside (D : Type) (c : statsd.Client S) : statsd.Client (S × D) where
  Increment := fun name tags => onFirst (c.Increment name tags)
  Count := fun name value tags => onFirst (c.Count name value tags)
  Timing := fun name d tags => onFirst (c.Timing name d tags)
  Start := fun serviceName methodName x =>
    (trackerBeside D (c.Start serviceName methodName x.1).1,
      ((c.Start serviceName methodName x.1).2, x.2))
  Close := onFirst c.Close

/-- A skills repository with state `D`, beside a state `S` it does not touch. -/
def skillsBeside (S : Type) (r : SkillsRepository D Ctx Skill) :
    SkillsRepository (S × D) Ctx Skill where
  ListSkills := fun ctx => onSecond (r.ListSkills ctx)
  GetSkill := fun ctx id => onSecond (r.GetSkill ctx id)

/-- An experiences repository with state `D`, beside a state `S`. -/
def experiencesBeside (S : Type) (r : ExperiencesRepository D Ctx Experience) :
    ExperiencesRepository (S × D) Ctx Experience where
  ListExperiences := fun ctx => onSecond (r.ListExperiences ctx)
  GetExperience := fun ctx id => onSecond (r.GetExperience ctx id)

/-- An educations repository with state `D`, beside a state `S`. -/
def educationsBeside (S : Type) (r : EducationsRepository D Ctx Education) :
    EducationsRepository (S × D) Ctx Education where
  ListEducations := fun ctx => onSecond (r.ListEducations ctx)
  GetEducation := fun ctx id => onSecond (r.GetEducation ctx id)

/-- The calls on the wrapped repository among the calls of a log. -/
def wrappedCalls (log : List Call) : List Call :=
  log.filter fun c =>
    match c with
    | .Wrapped _ _ => true
    | _ => false

end repositories


namespace repositories

variable {D Ctx Skill Experience Education : Type}

/-! ## The lines of one decorated call on the real sink -/

/-- The four packets of one decorated call for `subject` and `operation` on the
client `c`, begun in the state `w`, when the wrapped call returned the error
`err`: the "started" counter, the outcome counter, the timing of the outcome,
and the timing of `Finished()`. The tracker starts at the first clock reading;
the two timings use the next two readings. -/
def fourLines (c : statsd.client) (subject operation : GoString) (w : statsd.World)
    (err : Option GoError) : List statsd.Packet :=
  let rt : statsd.requestTracker :=
    { client := c, serviceName := subject, methodName := operation,
      startTime := w.clock w.reads }
  [ rt.counterPacket (str "started") [],
    (match err with
      | none => rt.counterPacket (str "succeeded") []
      | some e => rt.counterPacket (str "failed") [str "error:" ++ statsd.sanitizeTag e.Error]),
    (match err with
      | none => rt.timingPacket { w with reads := w.reads + 1 } [str "status:success"]
      | some e =>
        rt.timingPacket { w with reads := w.reads + 1 }
          [str "status:failed", str "error:" ++ statsd.sanitizeTag e.Error]),
    rt.timingPacket { w with reads := w.reads + 2 } [str "status:finished"] ]

/-- A skills repository without state: every list yields one record, every get
fails with the same error. -/
def sampleSkills : SkillsRepository Unit Unit Nat where
  ListSkills := fun _ d => ((some [7], none), d)
  GetSkill := fun _ _ d => ((none, some (.new 9 (str "db: down"))), d)

/-- An experiences repository without state, like `sampleSkills`. -/
def sampleExperiences : ExperiencesRepository Unit Unit Nat where
  ListExperiences := fun _ d => ((some [7], none), d)
  GetExperience := fun _ _ d => ((none, some (.new 9 (str "db: down"))), d)

/-- An educations repository without state, like `sampleSkills`. -/
def sampleEducations : EducationsRepository Unit Unit Nat where
  ListEducations := fun _ d => ((some [7], none), d)
  GetEducation := fun _ _ d => ((none, some (.new 9 (str "db: down"))), d)

end repositories


namespace interceptors

/-! ## statsd_interceptor.go: parseMethodName -/

/-- Go `strings.TrimPrefix(s, pre)`: `s` without the leading `pre` when it
starts with it, `s` otherwise. -/
def stringsTrimPrefix (s pre : GoString) : GoString :=
  if pre.isPrefixOf s then s.drop pre.length else s

/-- Go `strings.Split(s, sep)` for a separator `sep` of one byte: the pieces of
`s` between the separators, in order; there is always at least one piece. -/
def stringsSplit (s : GoString) (sep : Nat) : List GoString :=
  match s with
  | [] => [[]]
  | c :: cs =>
    if c = sep then [] :: stringsSplit cs sep
    else
      match stringsSplit cs sep with
      | [] => [[c]]
      | p :: ps => (c :: p) :: ps

/-- The function `parseMethodName`; the result is `(serviceName, methodName)`.
Byte 47 is `/` and byte 46 is `.`. -/
def parseMethodName (fullMethod : GoString) : GoString × GoString :=
  -- Remove leading slash
  let fullMethod := stringsTrimPrefix fullMethod (str "/")
  -- Split by slash to separate package.service from method
  let parts := stringsSplit fullMethod 47
  if parts.length ≠ 2 then (str "unknown", str "unknown")
  else
    -- Extract method name
    let methodName := parts.getD 1 []
    -- Extract service name from package.service
    let serviceParts := stringsSplit (parts.getD 0 []) 46
    let serviceName :=
      if serviceParts.length > 0 then serviceParts.getD (serviceParts.length - 1) []
      else str "unknown"
    (serviceName, methodName)

/-- The part of `s` after its last byte `sep`; all of `s` when it has none. -/
def afterLast (sep : Nat) : GoString → GoString
  | [] => []
  | c :: cs => if sep ∈ cs then afterLast sep cs else if c = sep then cs else c :: cs

end interceptors


/-! ## Error identity -/

/-- Go `errors.Is(err, target)`: `err` is `target`, or an error wrapped in it is. -/
def errorsIs : GoError → GoError → Bool
  | .new id msg, target => decide (GoError.new id msg = target)
  | .wrapf pre inner, target => decide (GoError.wrapf pre inner = target) || errorsIs inner target

namespace repositories

/-- The variable `ErrSkillNotFound`. -/
def ErrSkillNotFound : GoError := .new 1 (str "skill not found")

/-- The variable `ErrExperienceNotFound`. -/
def ErrExperienceNotFound : GoError := .new 2 (str "experience not found")

/-- The variable `ErrEducationNotFound`. -/
def ErrEducationNotFound : GoError := .new 3 (str "education not found")

/-- The variable `sql.ErrNoRows` of `database/sql`. -/
def sqlErrNoRows : GoError := .new 4 (str "sql: no rows in result set")

end repositories

namespace server

open repositories

/-! ## server.go: the handlers

The request and response types are generated code of package `portfolio_grpc`;
they are modelled by the fields the handlers read and set. A handler returns
`(response, error)`, the error being a gRPC status. -/

/-- The gRPC codes the handlers use, and `OK`. -/
inductive Code where
  | OK
  | NotFound
  | Internal
  deriving DecidableEq, Repr

/-- A gRPC status error: its code and its message (the detail). -/
structure Status where
  code : Code
  message : GoString
  deriving DecidableEq, Repr

/-- The function `status.Error(c, msg)`: an error with the code and the message,
nil for the code `OK`. -/
def statusError (c : Code) (msg : GoString) : Option Status :=
  if c = .OK then none else some { code := c, message := msg }

/-- The request of a get handler: the identifier (`int64`; the handler passes
`int(request.Id)`, the same number where `int` has 64 bits). -/
structure GetRequest where
  Id : Int
  deriving DecidableEq, Repr

/-- The response of a get handler: the record, a pointer. -/
structure GetResponse (R : Type) where
  record : Option R
  deriving DecidableEq, Repr

/-- The response of a list handler: the slice of records. -/
structure GetAllResponse (R : Type) where
  records : Option (List R)
  deriving DecidableEq, Repr

/-- The struct `serverImpl`. -/
structure serverImpl (W Ctx Skill Experience Education : Type) where
  skillsRepository : SkillsRepository W Ctx Skill
  experiencesRepository : ExperiencesRepository W Ctx Experience
  educationsRepository : EducationsRepository W Ctx Education

variable {W Ctx Skill Experience Education : Type}

/-- The handler `GetAllSkills`. -/
def serverImpl.GetAllSkills (s : serverImpl W Ctx Skill Experience Education) (ctx : Ctx)
    (w : W) : (Option (GetAllResponse Skill) × Option Status) × W :=
  let ((skills, err), w) := s.skillsRepository.ListSkills ctx w
  match err with
  | some err => ((none, statusError .Internal err.Error), w)
  | none => ((some { records := skills }, none), w)

/-- The handler `GetSkill`. -/
def serverImpl.GetSkill (s : serverImpl W Ctx Skill Experience Education) (ctx : Ctx)
    (request : GetRequest) (w : W) : (Option (GetResponse Skill) × Option Status) × W :=
  let ((skill, err), w) := s.skillsRepository.GetSkill ctx request.Id w
  match err with
  | some err =>
    if errorsIs err ErrSkillNotFound then ((none, statusError .NotFound err.Error), w)
    else ((none, statusError .Internal err.Error), w)
  | none => ((some { record := skill }, none), w)

/-- The handler `GetAllExperiences`. -/
def serverImpl.GetAllExperiences (s : serverImpl W Ctx Skill Experience Education) (ctx : Ctx)
    (w : W) : (Option (GetAllResponse Experience) × Option Status) × W :=
  let ((experiences, err), w) := s.experiencesRepository.ListExperiences ctx w
  match err with
  | some err => ((none, statusError .Internal err.Error), w)
  | none => ((some { records := experiences }, none), w)

/-- The handler `GetExperience`. -/
def serverImpl.GetExperience (s : serverImpl W Ctx Skill Experience Education) (ctx : Ctx)
    (request : GetRequest) (w : W) : (Option (GetResponse Experience) × Option Status) × W :=
  let ((experience, err), w) := s.experiencesRepository.GetExperience ctx request.Id w
  match err with
  | some err =>
    if errorsIs err ErrExperienceNotFound then ((none, statusError .NotFound err.Error), w)
    else ((none, statusError .Internal err.Error), w)
  | none => ((some { record := experience }, none), w)

/-- The handler `GetAllEducations`. -/
def serverImpl.GetAllEducations (s : serverImpl W Ctx Skill Experience Education) (ctx : Ctx)
    (w : W) : (Option (GetAllResponse Education) × Option Status) × W :=
  let ((educations, err), w) := s.educationsRepository.ListEducations ctx w
  match err with
  | some err => ((none, statusError .Internal err.Error), w)
  | none => ((some { records := educations }, none), w)

/-- The handler `GetEducation`. -/
def serverImpl.GetEducation (s : serverImpl W Ctx Skill Experience Education) (ctx : Ctx)
    (request : GetRequest) (w : W) : (Option (GetResponse Education) × Option Status) × W :=
  let ((education, err), w) := s.educationsRepository.GetEducation ctx request.Id w
  match err with
  | some err =>
    if errorsIs err ErrEducationNotFound then ((none, statusError .NotFound err.Error), w)
    else ((none, statusError .Internal err.Error), w)
  | none => ((some { record := education }, none), w)

/-- A server on repositories without state: every get reports that the record
is missing, wrapped once for educations; every list fails with that same
not-found error. -/
def emptyStoreServer : serverImpl Unit Unit Nat Nat Nat where
  skillsRepository :=
    { ListSkills := fun _ w => ((none, some ErrSkillNotFound), w)
      GetSkill := fun _ _ w => ((none, some ErrSkillNotFound), w) }
  experiencesRepository :=
    { ListExperiences := fun _ w => ((none, some ErrExperienceNotFound), w)
      GetExperience := fun _ _ w => ((none, some ErrExperienceNotFound), w) }
  educationsRepository :=
    { ListEducations := fun _ w => ((none, some ErrEducationNotFound), w)
      GetEducation := fun _ _ w =>
        ((none, some (.wrapf (str "lookup: ") ErrEducationNotFound)), w) }

end server


namespace utils

/-! ## timetopb.go -/

/-- A Go `time.Time`, by what the code reads from it: `Year()`, `Month()`,
`Day()`, `Unix()` and `Nanosecond()`. -/
structure Time where
  Year : Int
  Month : Int
  Day : Int
  Unix : Int
  Nanosecond : Int
  deriving DecidableEq, Repr

/-- A `Time` as Go can hold one: a month from 1 to 12, a day from 1 to 31, and
nanoseconds below one second. The year is any `int`. -/
def Time.valid (t : Time) : Prop :=
  1 ≤ t.Month ∧ t.Month ≤ 12 ∧ 1 ≤ t.Day ∧ t.Day ≤ 31 ∧
    0 ≤ t.Nanosecond ∧ t.Nanosecond < 1000000000

instance (t : Time) : Decidable t.valid := by unfold Time.valid; exact inferInstance

/-- The Go conversion `int32(v)`: the low 32 bits of `v`, read as a signed number. -/
def toInt32 (v : Int) : Int :=
  (v + 2 ^ 31) % 2 ^ 32 - 2 ^ 31

/-- The message `timestamppb.Timestamp`: seconds (`int64`) and nanos (`int32`). -/
structure Timestamp where
  Seconds : Int
  Nanos : Int
  deriving DecidableEq, Repr

/-- The message `date.Date`: year, month and day, each an `int32`. -/
structure Date where
  Year : Int
  Month : Int
  Day : Int
  deriving DecidableEq, Repr

/-- The function `timestamppb.New(t)`. -/
def timestamppbNew (t : Time) : Timestamp :=
  { Seconds := t.Unix, Nanos := toInt32 t.Nanosecond }

/-- The function `TimeToProtoTimestamp`; `none` is a nil pointer. -/
def TimeToProtoTimestamp (t : Option Time) : Option Timestamp :=
  match t with
  | none => none
  | some t => some (timestamppbNew t)

/-- The function `TimeToProtoDate`; `none` is a nil pointer. -/
def TimeToProtoDate (t : Option Time) : Option Date :=
  match t with
  | none => none
  | some t =>
    some { Year := toInt32 t.Year, Month := toInt32 t.Month, Day := toInt32 t.Day }

/-- The first instant of the year 2147483648 (2 to the power 31), in UTC. -/
def farFuture : Time where
  Year := 2147483648
  Month := 1
  Day := 1
  Unix := 67767976233532800
  Nanosecond := 0

end utils

namespace portfolio_grpc

/-! ## The records of package `portfolio_grpc` -/

/-- Modelled from the spec: the generated message `Skill` is not among the
sources; its fields here are those the row mapping sets. -/
structure Skill where
  Id : Int
  Title : GoString
  Level : Int
  CreatedAt : Option utils.Timestamp
  UpdatedAt : Option utils.Timestamp
  deriving DecidableEq, Repr

/-- Modelled from the spec: the generated message `Experience_Company`, by the
fields the row mapping sets. -/
structure Experience_Company where
  Name : GoString
  Url : GoString
  LogoUrl : GoString
  deriving DecidableEq, Repr

/-- Modelled from the spec: the generated message `Experience`, by the fields
the row mapping sets. -/
structure Experience where
  Id : Int
  Title : GoString
  Description : GoString
  Company : Option Experience_Company
  Technologies : List GoString
  StartedAt : Option utils.Date
  EndedAt : Option utils.Date
  CreatedAt : Option utils.Timestamp
  UpdatedAt : Option utils.Timestamp
  deriving DecidableEq, Repr

/-- Modelled from the spec: the generated message `Education_Institution`, by
the fields the row mapping sets. -/
structure Education_Institution where
  Name : GoString
  Url : GoString
  deriving DecidableEq, Repr

/-- Modelled from the spec: the generated message `Education`, by the fields the
row mapping sets. -/
structure Education where
  Id : Int
  Title : GoString
  Institution : Option Education_Institution
  StartedAt : Option utils.Date
  EndedAt : Option utils.Date
  CreatedAt : Option utils.Timestamp
  UpdatedAt : Option utils.Timestamp
  deriving DecidableEq, Repr

end portfolio_grpc

namespace repositories

/-! ## The database handle

`R` is the struct a row is scanned into. -/

/-- The interface `rowScanner` (a `*sql.Row`, or a `*sql.Rows` standing on a
row): `Scan` fills the struct it is given and returns an error or nil. -/
structure rowScanner (R : Type) where
  Scan : R → R × Option GoError

/-- A `*sql.Rows`: the rows that `Next()` steps through, in order, and the
error `Err()` reports once `Next()` has returned false. -/
structure Rows (R : Type) where
  rows : List (rowScanner R)
  Err : Option GoError

/-- A `*sql.DB`, by the two calls the repositories make: `QueryContext` with the
statement, and `QueryRowContext` with the statement and its arguments. -/
structure DB (W Ctx R : Type) where
  QueryContext : Ctx → GoString → W → Except GoError (Rows R) × W
  QueryRowContext : Ctx → GoString → List Int → W → rowScanner R × W

/-- The loop `for rows.Next() { decode; append }` of the three list methods:
the first row that fails to decode ends the loop with its error. -/
def scanLoop {R P : Type} (decode : rowScanner R → Except GoError P) :
    List (rowScanner R) → List P → Except GoError (List P)
  | [], acc => .ok acc
  | row :: rest, acc =>
    match decode row with
    | .error err => .error err
    | .ok p => scanLoop decode rest (acc ++ [p])

/-- Whether `sub` occurs in `s` as a run of consecutive bytes. -/
def hasInfix (sub : GoString) : GoString → Bool
  | [] => sub.isEmpty
  | c :: cs => sub.isPrefixOf (c :: cs) || hasInfix sub cs

/-! ## skills_db.go -/

/-- The constant `skillsTableName`. -/
def skillsTableName : GoString := str "skills"

/-- The struct `pgSkill`. -/
structure pgSkill where
  ID : Int
  Title : GoString
  Level : Int
  CreatedAt : Option utils.Time
  UpdatedAt : Option utils.Time
  deriving DecidableEq, Repr

/-- The value `new(pgSkill)`. -/
def pgSkill.zero : pgSkill :=
  { ID := 0, Title := [], Level := 0, CreatedAt := none, UpdatedAt := none }

/-- The method `pgSkill.toProto`. -/
def pgSkill.toProto (p : pgSkill) : portfolio_grpc.Skill :=
  { Id := p.ID
    Title := p.Title
    Level := p.Level
    CreatedAt := utils.TimeToProtoTimestamp p.CreatedAt
    UpdatedAt := utils.TimeToProtoTimestamp p.UpdatedAt }

/-- The struct `skillsRepositoryImpl`. -/
structure skillsRepositoryImpl (W Ctx : Type) where
  db : DB W Ctx pgSkill
  tableName : GoString

/-- The function `newSkillsDBRepository`. -/
def newSkillsDBRepository {W Ctx : Type} (db : DB W Ctx pgSkill) : skillsRepositoryImpl W Ctx :=
  { db := db, tableName := skillsTableName }

/-- The statement of `ListSkills`. -/
def listSkillsQuery (tableName : GoString) : GoString :=
  str "SELECT id, title, level, created_at, updated_at FROM " ++ tableName ++ str " LIMIT 1000"

/-- The statement of `GetSkill`. -/
def getSkillQuery (tableName : GoString) : GoString :=
  str "SELECT id, title, level, created_at, updated_at FROM " ++ tableName ++
    str " WHERE id = $1"

/-- The method `decodeSkill`. -/
def decodeSkill (row : rowScanner pgSkill) : Except GoError portfolio_grpc.Skill :=
  match row.Scan pgSkill.zero with
  | (_, some err) =>
    if errorsIs err sqlErrNoRows then .error ErrSkillNotFound
    else .error (.wrapf (str "failed to scan skill: ") err)
  | (skill, none) => .ok skill.toProto

/-- The method `ListSkills` of the database repository. -/
def skillsRepositoryImpl.ListSkills {W Ctx : Type} (s : skillsRepositoryImpl W Ctx) (ctx : Ctx)
    (w : W) : (Option (List portfolio_grpc.Skill) × Option GoError) × W :=
  match s.db.QueryContext ctx (listSkillsQuery s.tableName) w with
  | (.error err, w) => ((none, some err), w)
  | (.ok rows, w) =>
    match scanLoop decodeSkill rows.rows [] with
    | .error err => ((none, some err), w)
    | .ok skills =>
      match rows.Err with
      | some err => ((none, some err), w)
      | none => ((some skills, none), w)

/-- The method `GetSkill` of the database repository. -/
def skillsRepositoryImpl.GetSkill {W Ctx : Type} (s : skillsRepositoryImpl W Ctx) (ctx : Ctx)
    (id : Int) (w : W) : (Option portfolio_grpc.Skill × Option GoError) × W :=
  let (row, w) := s.db.QueryRowContext ctx (getSkillQuery s.tableName) [id] w
  match decodeSkill row with
  | .error err => ((none, some err), w)
  | .ok skill => ((some skill, none), w)

end repositories


namespace repositories

/-! ## experiences_db.go

`jsonUnmarshal b` stands for `json.Unmarshal(b, &v)` on a nil `v []string`: the
slice it leaves in `v` (nil is the empty list) and the error it returns. -/

/-- The constant `experiencesTableName`. -/
def experiencesTableName : GoString := str "experiences"

/-- The columns `newExperiencesDBRepository` selects. -/
def experiencesSelectColumns : GoString :=
  stringsJoin
    [str "id", str "title", str "description", str "company_name", str "company_url",
      str "company_logo_url", str "languages", str "frameworks", str "started_at",
      str "finished_at as ended_at", str "created_at", str "updated_at"] (str ",")

/-- The struct `pgExperience`. -/
structure pgExperience where
  ID : Int
  Title : GoString
  Description : GoString
  CompanyName : GoString
  CompanyURL : GoString
  CompanyLogo : GoString
  Languages : GoString
  Frameworks : GoString
  StartedAt : Option utils.Time
  EndedAt : Option utils.Time
  CreatedAt : Option utils.Time
  UpdatedAt : Option utils.Time
  deriving DecidableEq, Repr

/-- The value `new(pgExperience)`. -/
def pgExperience.zero : pgExperience :=
  { ID := 0, Title := [], Description := [], CompanyName := [], CompanyURL := [],
    CompanyLogo := [], Languages := [], Frameworks := [], StartedAt := none, EndedAt := none,
    CreatedAt := none, UpdatedAt := none }

/-- The method `pgExperience.toProto`. Both columns are unmarshalled and both
errors dropped; only `langs` is appended to the technologies. -/
def pgExperience.toProto (jsonUnmarshal : GoString → List GoString × Option GoError)
    (p : pgExperience) : portfolio_grpc.Experience :=
  let exp : portfolio_grpc.Experience :=
    { Id := p.ID
      Title := p.Title
      Description := p.Description
      Company := none
      Technologies := []
      StartedAt := none
      EndedAt := none
      CreatedAt := utils.TimeToProtoTimestamp p.CreatedAt
      UpdatedAt := utils.TimeToProtoTimestamp p.UpdatedAt }
  let exp := { exp with
    Company := some { Name := p.CompanyName, Url := p.CompanyURL, LogoUrl := p.CompanyLogo } }
  let (langs, _) := jsonUnmarshal p.Languages
  let (_frameworks, _) := jsonUnmarshal p.Frameworks
  let exp := { exp with Technologies := exp.Technologies ++ langs }
  let exp := { exp with StartedAt := utils.TimeToProtoDate p.StartedAt }
  let exp := { exp with EndedAt := utils.TimeToProtoDate p.EndedAt }
  exp

/-- The struct `experiencesRepositoryImpl`. -/
structure experiencesRepositoryImpl (W Ctx : Type) where
  db : DB W Ctx pgExperience
  tableName : GoString
  selectColumns : GoString

/-- The function `newExperiencesDBRepository`. -/
def newExperiencesDBRepository {W Ctx : Type} (db : DB W Ctx pgExperience) :
    experiencesRepositoryImpl W Ctx :=
  { db := db, tableName := experiencesTableName, selectColumns := experiencesSelectColumns }

/-- The statement of `ListExperiences` and of `ListEducations` (the two format
strings are the same). -/
def listOrderedQuery (selectColumns tableName : GoString) : GoString :=
  str "\n\t\tSELECT " ++ selectColumns ++ str "\n\t\tFROM " ++ tableName ++
    str " e\n\t\tORDER BY e.started_at DESC\n\t\tLIMIT 1000"

/-- The statement of `GetExperience`. -/
def getExperienceQuery (selectColumns tableName : GoString) : GoString :=
  str "\n\t\tSELECT " ++ selectColumns ++ str "\n\t\tFROM " ++ tableName ++
    str "\n\t\tWHERE id = $1 LIMIT 1;"

/-- The method `decodeExperience`. -/
def decodeExperience (jsonUnmarshal : GoString → List GoString × Option GoError)
    (row : rowScanner pgExperience) : Except GoError portfolio_grpc.Experience :=
  match row.Scan pgExperience.zero with
  | (_, some err) =>
    if errorsIs err sqlErrNoRows then .error ErrExperienceNotFound
    else .error (.wrapf (str "failed to scan experience: ") err)
  | (exp, none) => .ok (exp.toProto jsonUnmarshal)

/-- The method `ListExperiences` of the database repository. -/
def experiencesRepositoryImpl.ListExperiences {W Ctx : Type}
    (e : experiencesRepositoryImpl W Ctx)
    (jsonUnmarshal : GoString → List GoString × Option GoError) (ctx : Ctx) (w : W) :
    (Option (List portfolio_grpc.Experience) × Option GoError) × W :=
  match e.db.QueryContext ctx (listOrderedQuery e.selectColumns e.tableName) w with
  | (.error err, w) => ((none, some err), w)
  | (.ok rows, w) =>
    match scanLoop (decodeExperience jsonUnmarshal) rows.rows [] with
    | .error err => ((none, some err), w)
    | .ok experiences =>
      match rows.Err with
      | some err => ((none, some err), w)
      | none => ((some experiences, none), w)

/-- The method `GetExperience` of the database repository. -/
def experiencesRepositoryImpl.GetExperience {W Ctx : Type}
    (e : experiencesRepositoryImpl W Ctx)
    (jsonUnmarshal : GoString → List GoString × Option GoError) (ctx : Ctx) (id : Int) (w : W) :
    (Option portfolio_grpc.Experience × Option GoError) × W :=
  let (row, w) := e.db.QueryRowContext ctx (getExperienceQuery e.selectColumns e.tableName) [id] w
  match decodeExperience jsonUnmarshal row with
  | .error err => ((none, some err), w)
  | .ok experience => ((some experience, none), w)

/-! ## educations_db.go -/

/-- The constant `educationsTableName`. -/
def educationsTableName : GoString := str "education"

/-- The columns `newEducationsDBRepository` selects. -/
def educationsSelectColumns : GoString :=
  stringsJoin
    [str "id", str "title", str "institution_name", str "institution_url", str "started_at",
      str "finished_at as ended_at", str "created_at", str "updated_at"] (str ",")

/-- The struct `pgEducation`. -/
structure pgEducation where
  ID : Int
  Title : GoString
  Description : GoString
  InstitutionName : GoString
  InstitutionURL : GoString
  StartedAt : Option utils.Time
  EndedAt : Option utils.Time
  CreatedAt : Option utils.Time
  UpdatedAt : Option utils.Time
  deriving DecidableEq, Repr

/-- The value `new(pgEducation)`. -/
def pgEducation.zero : pgEducation :=
  { ID := 0, Title := [], Description := [], InstitutionName := [], InstitutionURL := [],
    StartedAt := none, EndedAt := none, CreatedAt := none, UpdatedAt := none }

/-- The method `pgEducation.toProto`, with its two assignments of the dates
that repeat what the literal already set. -/
def pgEducation.toProto (p : pgEducation) : portfolio_grpc.Education :=
  let edu : portfolio_grpc.Education :=
    { Id := p.ID
      Title := p.Title
      Institution := none
      CreatedAt := utils.TimeToProtoTimestamp p.CreatedAt
      UpdatedAt := utils.TimeToProtoTimestamp p.UpdatedAt
      StartedAt := utils.TimeToProtoDate p.StartedAt
      EndedAt := utils.TimeToProtoDate p.EndedAt }
  let edu := { edu with
    Institution := some { Name := p.InstitutionName, Url := p.InstitutionURL } }
  let edu :=
    if p.StartedAt ≠ none then { edu with StartedAt := utils.TimeToProtoDate p.StartedAt }
    else edu
  let edu :=
    if p.EndedAt ≠ none then { edu with EndedAt := utils.TimeToProtoDate p.EndedAt }
    else edu
  edu

/-- The struct `educationsRepositoryImpl`. -/
structure educationsRepositoryImpl (W Ctx : Type) where
  db : DB W Ctx pgEducation
  tableName : GoString
  selectColumns : GoString

/-- The function `newEducationsDBRepository`. -/
def newEducationsDBRepository {W Ctx : Type} (db : DB W Ctx pgEducation) :
    educationsRepositoryImpl W Ctx :=
  { db := db, tableName := educationsTableName, selectColumns := educationsSelectColumns }

/-- The statement of `GetEducation`. -/
def getEducationQuery (selectColumns tableName : GoString) : GoString :=
  str "\n\t\tSELECT " ++ selectColumns ++ str "\n\t\tFROM " ++ tableName ++
    str "\n\t\tWHERE id = $1"

/-- The method `decodeEducation`. -/
def decodeEducation (row : rowScanner pgEducation) : Except GoError portfolio_grpc.Education :=
  match row.Scan pgEducation.zero with
  | (_, some err) =>
    if errorsIs err sqlErrNoRows then .error ErrEducationNotFound
    else .error (.wrapf (str "failed to scan education: ") err)
  | (edu, none) => .ok edu.toProto

/-- The method `ListEducations` of the database repository. -/
def educationsRepositoryImpl.ListEducations {W Ctx : Type} (e : educationsRepositoryImpl W Ctx)
    (ctx : Ctx) (w : W) : (Option (List portfolio_grpc.Education) × Option GoError) × W :=
  match e.db.QueryContext ctx (listOrderedQuery e.selectColumns e.tableName) w with
  | (.error err, w) => ((none, some err), w)
  | (.ok rows, w) =>
    match scanLoop decodeEducation rows.rows [] with
    | .error err => ((none, some err), w)
    | .ok educations =>
      match rows.Err with
      | some err => ((none, some err), w)
      | none => ((some educations, none), w)

/-- The method `GetEducation` of the database repository. -/
def educationsRepositoryImpl.GetEducation {W Ctx : Type} (e : educationsRepositoryImpl W Ctx)
    (ctx : Ctx) (id : Int) (w : W) : (Option portfolio_grpc.Education × Option GoError) × W :=
  let (row, w) := e.db.QueryRowContext ctx (getEducationQuery e.selectColumns e.tableName) [id] w
  match decodeEducation row with
  | .error err => ((none, some err), w)
  | .ok education => ((some education, none), w)

end repositories


namespace repositories

/-! ## Sample databases and a fragment of `json.Unmarshal` -/

/-- A skills table without rows: every `QueryRowContext` yields a row whose
`Scan` returns `sql.ErrNoRows`, every `QueryContext` yields no rows. -/
def emptySkillsDB : DB Unit Unit pgSkill where
  QueryContext := fun _ _ w => (.ok { rows := [], Err := none }, w)
  QueryRowContext := fun _ _ _ w => ({ Scan := fun r => (r, some sqlErrNoRows) }, w)

/-- A row of the skills table whose `Scan` succeeds. -/
def skillRow (id : Int) (title : GoString) : rowScanner pgSkill where
  Scan := fun r => ({ r with ID := id, Title := title, Level := 3 }, none)

/-- A skills table with two rows, delivered in this order. -/
def twoSkillsDB : DB Unit Unit pgSkill where
  QueryContext := fun _ _ w =>
    (.ok { rows := [skillRow 2 (str "Go"), skillRow 1 (str "SQL")], Err := none }, w)
  QueryRowContext := fun _ _ _ w => (skillRow 2 (str "Go"), w)

/-- The error `json.Unmarshal` returns for a value of the wrong type
(`*json.UnmarshalTypeError`). -/
def jsonTypeError : GoError :=
  .new 5 (str "json: cannot unmarshal number into Go value of type string")

/-- The error `json.Unmarshal` returns for input that is not JSON
(`*json.SyntaxError`). -/
def jsonSyntaxError : GoError :=
  .new 6 (str "invalid character looking for beginning of value")

/-- The bytes after an opening quote, up to the closing quote, of a JSON string
without escapes and of ASCII only: the content and what follows the quote. -/
def jsonStringBody : GoString → Option (GoString × GoString)
  | [] => none
  | c :: cs =>
    if c = 34 then some ([], cs)
    else if c = 92 ∨ c < 32 ∨ 127 < c then none
    else
      match jsonStringBody cs with
      | some (s, rest) => some (c :: s, rest)
      | none => none

/-- One element at the head of the input: a string (`some` of its content) or an
unsigned integer (`none`), and what follows it. -/
def jsonElement (s : GoString) : Option (Option GoString × GoString) :=
  match s with
  | [] => none
  | c :: cs =>
    if c = 34 then
      match jsonStringBody cs with
      | some (x, rest) => some (some x, rest)
      | none => none
    else if c = 48 then some (none, cs)
    else if 49 ≤ c ∧ c ≤ 57 then some (none, cs.dropWhile fun d => 48 ≤ d ∧ d ≤ 57)
    else none

/-- The elements after the first, each behind a comma, up to the closing
bracket, which must end the input. -/
def jsonElements : Nat → GoString → Option (List (Option GoString))
  | 0, _ => none
  | fuel + 1, s =>
    match s with
    | [93] => some []
    | 44 :: cs =>
      match jsonElement cs with
      | some (e, rest) =>
        match jsonElements fuel rest with
        | some es => some (e :: es)
        | none => none
      | none => none
    | _ => none

/-- The behaviour of `json.Unmarshal(b, &v)` on a nil `v []string`, for `b` in
a fragment of JSON: arrays without white space whose elements are strings
without escapes, of ASCII only, or unsigned integers. As the package documents,
an element of the wrong type is skipped (its slot keeps the empty string), the
rest is unmarshalled as well as it can be, and the earliest such error is
returned. Outside the fragment this definition reports a syntax error and leaves
the slice nil; that matches Go for input that is not JSON only, so the
definition is applied to inputs of the fragment only. -/
def jsonUnmarshalCompact (b : GoString) : List GoString × Option GoError :=
  match b with
  | 91 :: cs =>
    if cs = [93] then ([], none)
    else
      match jsonElement cs with
      | some (e, rest) =>
        match jsonElements b.length rest with
        | some es =>
          ((e :: es).map fun x => x.getD [],
            if (e :: es).all Option.isSome then none else some jsonTypeError)
        | none => ([], some jsonSyntaxError)
      | none => ([], some jsonSyntaxError)
  | _ => ([], some jsonSyntaxError)

end repositories


namespace repositories

/-- A row of the experiences table whose `Scan` succeeds, started on the given
day. -/
def experienceRow (id year month day : Int) : rowScanner pgExperience where
  Scan := fun r =>
    ({ r with
        ID := id
        StartedAt := some
          { Year := year, Month := month, Day := day, Unix := 0, Nanosecond := 0 } }, none)

/-- An experiences table with two rows, delivered latest start first. -/
def twoExperiencesDB : DB Unit Unit pgExperience where
  QueryContext := fun _ _ w =>
    (.ok { rows := [experienceRow 8 2024 2 29, experienceRow 5 2019 7 1], Err := none }, w)
  QueryRowContext := fun _ _ _ w => (experienceRow 8 2024 2 29, w)

/-- The descending order of start dates, as `ORDER BY started_at DESC` delivers
rows: a missing date comes first, and otherwise the first date is not earlier
than the second. -/
def startDateDescending (a b : Option utils.Date) : Prop :=
  match a, b with
  | none, _ => True
  | some _, none => False
  | some x, some y =>
    y.Year < x.Year ∨ (y.Year = x.Year ∧ (y.Month < x.Month ∨ (y.Month = x.Month ∧ y.Day ≤ x.Day)))

instance (a b : Option utils.Date) : Decidable (startDateDescending a b) := by
  unfold startDateDescending
  cases a <;> cases b <;> exact inferInstance

end repositories

/-! ## Theorems -/

namespace statsd

theorem str_alphabet :
    str "abcdefghijklmnopqrstuvwxyzABCDEFGHIJKLMNOPQRSTUVWXYZ0123456789-_." =
      [97, 98, 99, 100, 101, 102, 103, 104, 105, 106, 107, 108, 109, 110, 111, 112, 113, 114,
       115, 116, 117, 118, 119, 120, 121, 122, 65, 66, 67, 68, 69, 70, 71, 72, 73, 74, 75, 76,
       77, 78, 79, 80, 81, 82, 83, 84, 85, 86, 87, 88, 89, 90, 48, 49, 50, 51, 52, 53, 54, 55,
       56, 57, 45, 95, 46] := by decide

theorem safeTagByte_iff (c : Nat) :
    safeTagByte c ↔
      ((97 ≤ c ∧ c ≤ 122) ∨ (65 ≤ c ∧ c ≤ 90) ∨ (48 ≤ c ∧ c ≤ 57) ∨ c = 45 ∨ c = 95 ∨ c = 46) := by
  unfold safeTagByte
  rw [str_alphabet]
  simp only [List.mem_cons, List.mem_singleton, List.not_mem_nil, or_false]
  omega

/-- C1 (as stated, refuted): `sanitizeTag("connection refused: timeout")` is not
`"connection_refused_timeout"`. -/
theorem spec_example_output_differs :
    sanitizeTag (str "connection refused: timeout") ≠ str "connection_refused_timeout" := by
  decide

/-- C1 (amended): `sanitizeTag("connection refused: timeout")` is exactly
`"connection_refused__timeout"`: the colon and the space that follows it each
become an underscore of their own. -/
theorem sanitizeTag_example :
    sanitizeTag (str "connection refused: timeout") = str "connection_refused__timeout" := by
  decide

/-! ### sanitizeTag against the specification's wording -/

theorem step_eq_append_specChar (result : GoString) (c : Nat) :
    sanitizeTag.step result c = result ++ specChar c := by
  unfold sanitizeTag.step specChar
  have hsp : ∀ x : Nat, x ∈ str " :" ↔ (x = 32 ∨ x = 58) := by
    intro x
    have : str " :" = [32, 58] := by decide
    rw [this]; simp
  have hu : str "_" = [95] := by decide
  by_cases h1 : (97 ≤ c ∧ c ≤ 122) ∨ (65 ≤ c ∧ c ≤ 90) ∨ (48 ≤ c ∧ c ≤ 57) ∨ c = 45 ∨ c = 95 ∨ c = 46
  · have h1m := (safeTagByte_iff c).mpr h1
    unfold safeTagByte at h1m
    rw [if_pos h1, if_pos h1m]
  · have h1m : ¬ c ∈ str "abcdefghijklmnopqrstuvwxyzABCDEFGHIJKLMNOPQRSTUVWXYZ0123456789-_." :=
      fun hm => h1 ((safeTagByte_iff c).mp hm)
    rw [if_neg h1, if_neg h1m]
    by_cases h2 : c = 32 ∨ c = 58
    · rw [if_pos h2, if_pos ((hsp c).mpr h2), hu]
    · rw [if_neg h2, if_neg (fun hm => h2 ((hsp c).mp hm))]
      simp

theorem foldl_step (l acc : GoString) :
    l.foldl sanitizeTag.step acc = acc ++ l.flatMap specChar := by
  induction l generalizing acc with
  | nil => simp
  | cons c cs ih =>
    rw [List.foldl_cons, ih, step_eq_append_specChar, List.flatMap_cons, List.append_assoc]

/-- The loop of `sanitizeTag`, as one expression: what the loop leaves in
`result` is the concatenation of what each byte contributes. -/
theorem sanitizeTag_eq (input : GoString) :
    sanitizeTag input =
      if (input.take 50).flatMap specChar = [] then str "unknown"
      else (input.take 50).flatMap specChar := by
  have htake : (if input.length > 50 then input.take 50 else input) = input.take 50 := by
    split
    · rfl
    · rw [List.take_of_length_le (by omega)]
  unfold sanitizeTag
  simp only [htake, foldl_step, List.nil_append, List.length_eq_zero]

theorem specChar_length_le (c : Nat) : (specChar c).length ≤ 1 := by
  unfold specChar
  have hu : str "_" = [95] := by decide
  split
  · simp
  · split
    · simp [hu]
    · simp

theorem specChar_safe (c x : Nat) (hx : x ∈ specChar c) : safeTagByte x := by
  unfold specChar at hx
  have hu : str "_" = [95] := by decide
  split at hx
  · rename_i h
    simp only [List.mem_singleton] at hx
    subst hx
    exact h
  · split at hx
    · rw [hu] at hx
      simp only [List.mem_singleton] at hx
      subst hx
      exact (safeTagByte_iff 95).mpr (by omega)
    · simp at hx

theorem flatMap_specChar_length_le (l : GoString) : (l.flatMap specChar).length ≤ l.length := by
  induction l with
  | nil => simp
  | cons c cs ih =>
    rw [List.flatMap_cons, List.length_append, List.length_cons]
    have := specChar_length_le c
    omega

theorem runeWidth_pos (c : Nat) (cs : GoString) : 1 ≤ runeWidth (c :: cs) := by
  unfold runeWidth
  simp only
  repeat' split
  all_goals omega

/-- A character is one byte, or at least two bytes that are all 128 or more. -/
theorem runeWidth_cases (c : Nat) (cs : GoString) :
    runeWidth (c :: cs) = 1 ∨
      (2 ≤ ((c :: cs).take (runeWidth (c :: cs))).length ∧
        ∀ b ∈ (c :: cs).take (runeWidth (c :: cs)), 128 ≤ b) := by
  unfold runeWidth
  simp only
  repeat' split
  all_goals first
    | (left; rfl)
    | (right
       simp only [List.take_succ_cons, List.take_zero, List.length_cons, List.length_nil,
         List.mem_cons, List.mem_singleton, List.not_mem_nil, or_false]
       refine ⟨by omega, ?_⟩
       intro b hb
       rcases hb with h | h | h | h <;> (try subst h) <;> omega)

/-- The characters of a string, put back together, are the string. -/
theorem splitChars_flatten (fuel : Nat) (s : GoString) (h : s.length ≤ fuel) :
    (splitChars fuel s).flatten = s := by
  induction fuel generalizing s with
  | zero =>
    have : s = [] := List.length_eq_zero.mp (by omega)
    subst this; simp [splitChars]
  | succ n ih =>
    cases s with
    | nil => simp [splitChars]
    | cons c cs =>
      have hw := runeWidth_pos c cs
      have hd : ((c :: cs).drop (runeWidth (c :: cs))).length ≤ n := by
        rw [List.length_drop]
        simp only [List.length_cons] at h ⊢
        omega
      rw [splitChars, List.flatten_cons, ih _ hd, List.take_append_drop]

theorem specChar_high (b : Nat) (hb : 128 ≤ b) : specChar b = [] := by
  unfold specChar
  have hsp : str " :" = [32, 58] := by decide
  have h1 : ¬ b ∈ str "abcdefghijklmnopqrstuvwxyzABCDEFGHIJKLMNOPQRSTUVWXYZ0123456789-_." := by
    intro hm
    have := (safeTagByte_iff b).mp hm
    omega
  have h2 : ¬ b ∈ str " :" := by
    rw [hsp]
    simp only [List.mem_cons, List.mem_singleton, List.not_mem_nil, or_false]
    omega
  rw [if_neg h1, if_neg h2]

theorem flatMap_specChar_high (l : GoString) (hl : ∀ b ∈ l, 128 ≤ b) :
    l.flatMap specChar = [] := by
  induction l with
  | nil => rfl
  | cons b bs ih =>
    rw [List.flatMap_cons, specChar_high b (hl b (List.mem_cons_self b bs)),
      ih (fun x hx => hl x (List.mem_cons_of_mem b hx))]
    rfl

theorem specOfChar_long (ch : GoString) (h : 2 ≤ ch.length) : specOfChar ch = [] := by
  match ch, h with
  | _ :: _ :: _, _ => rfl

/-- Scanning character by character emits what scanning byte by byte emits. -/
theorem flatMap_specOfChar (fuel : Nat) (s : GoString) (h : s.length ≤ fuel) :
    (splitChars fuel s).flatMap specOfChar = s.flatMap specChar := by
  induction fuel generalizing s with
  | zero =>
    have : s = [] := List.length_eq_zero.mp (by omega)
    subst this; simp [splitChars]
  | succ n ih =>
    cases s with
    | nil => simp [splitChars]
    | cons c cs =>
      have hw := runeWidth_pos c cs
      have hd : ((c :: cs).drop (runeWidth (c :: cs))).length ≤ n := by
        rw [List.length_drop]
        simp only [List.length_cons] at h ⊢
        omega
      rw [splitChars, List.flatMap_cons, ih _ hd]
      rcases runeWidth_cases c cs with h1 | ⟨h2, hb⟩
      · rw [h1]
        simp [specOfChar]
      · rw [specOfChar_long _ h2]
        conv_rhs => rw [← List.take_append_drop (runeWidth (c :: cs)) (c :: cs)]
        rw [List.flatMap_append, flatMap_specChar_high _ hb]

/-- C2: for an input of at most 50 bytes `sanitizeTag` is the specification's
scan of the characters from left to right (keep `[A-Za-z0-9-_.]`, turn a space or
a colon into `_`, emit nothing otherwise), with "unknown" when the scan leaves
nothing, as for the empty input. -/
theorem sanitizeTag_refines_spec (input : GoString) (hlen : input.length ≤ 50) :
    sanitizeTag input = specSanitize input := by
  rw [sanitizeTag_eq, List.take_of_length_le hlen]
  unfold specSanitize chars
  simp only [flatMap_specOfChar input.length input (le_refl _)]

/-- C2 at inputs with a colon, spaces, a dropped `!`, a two-byte character, and
at the empty input. -/
theorem sanitizeTag_refines_spec_witness :
    (str "db: no rows é!").length ≤ 50 ∧
      sanitizeTag (str "db: no rows é!") = specSanitize (str "db: no rows é!") ∧
      specSanitize (str "db: no rows é!") = str "db__no_rows_" ∧
      specSanitize [] = str "unknown" :=
  ⟨by decide, sanitizeTag_refines_spec (str "db: no rows é!") (by decide), by decide, by decide⟩

/-! ### Truncation -/

theorem firstChars_eq_take (n : Nat) (s : GoString) :
    ∃ k, n ≤ k ∧ firstChars n s = s.take k := by
  induction n generalizing s with
  | zero => exact ⟨0, le_refl 0, by simp [firstChars]⟩
  | succ n ih =>
    cases s with
    | nil => exact ⟨n + 1, le_refl _, by simp [firstChars]⟩
    | cons c cs =>
      obtain ⟨k, hk, hk2⟩ := ih ((c :: cs).drop (runeWidth (c :: cs)))
      have hw := runeWidth_pos c cs
      refine ⟨runeWidth (c :: cs) + k, by omega, ?_⟩
      rw [firstChars, hk2, List.take_add]

theorem take_firstChars (n : Nat) (s : GoString) : (firstChars n s).take n = s.take n := by
  obtain ⟨k, hk, hk2⟩ := firstChars_eq_take n s
  rw [hk2, List.take_take, Nat.min_eq_left hk]

/-- The first `n` characters are the first `n` entries of the list of
characters, put together. -/
theorem firstChars_eq_chars (fuel n : Nat) (s : GoString) (h : s.length ≤ fuel) :
    firstChars n s = ((splitChars fuel s).take n).flatten := by
  induction fuel generalizing n s with
  | zero =>
    have : s = [] := List.length_eq_zero.mp (by omega)
    subst this
    cases n <;> simp [firstChars, splitChars]
  | succ f ih =>
    cases n with
    | zero => simp [firstChars]
    | succ n =>
      cases s with
      | nil => simp [firstChars, splitChars]
      | cons c cs =>
        have hw := runeWidth_pos c cs
        have hd : ((c :: cs).drop (runeWidth (c :: cs))).length ≤ f := by
          rw [List.length_drop]
          simp only [List.length_cons] at h ⊢
          omega
        rw [firstChars, splitChars, List.take_succ_cons, List.flatten_cons, ih n _ hd]

/-- What `sanitizeTag` computes for every input: the scan of its first 50 bytes. -/
theorem sanitizeTag_scans_first_50_bytes (input : GoString) :
    sanitizeTag input = specSanitize (input.take 50) := by
  rw [sanitizeTag_eq]
  unfold specSanitize chars
  simp only [flatMap_specOfChar (input.take 50).length (input.take 50) (le_refl _)]

/-- C3 (the code differs): at an input of 53 characters in 55 bytes that starts
with a two-byte character, `sanitizeTag` cuts at 50 bytes, inside the first 50
characters. The first 50 characters end with the colon, so truncating to 50
characters and then replacing yields 48 times `a` and an underscore; the code
returns 48 times `a`. -/
theorem sanitizeTag_cuts_bytes_not_characters :
    multiByteInput.length = 55 ∧
      (chars multiByteInput).length = 53 ∧
      firstChars 50 multiByteInput = [195, 169] ++ List.replicate 48 97 ++ str ":" ∧
      (firstChars 50 multiByteInput).length = 51 ∧
      specSanitize (firstChars 50 multiByteInput) = List.replicate 48 97 ++ str "_" ∧
      sanitizeTag multiByteInput = List.replicate 48 97 ∧
      sanitizeTag multiByteInput ≠ specSanitize (firstChars 50 multiByteInput) := by
  decide

/-! ### Safety of the tag value -/

/-- C4: for every input the result of `sanitizeTag` is non-empty, at most 50
bytes long and made only of bytes in `[A-Za-z0-9]`, `-`, `_`, `.`; so it holds no
`,`, `|`, `#`, `:` and no newline. -/
theorem sanitizeTag_safe (input : GoString) :
    sanitizeTag input ≠ [] ∧
      (sanitizeTag input).length ≤ 50 ∧
      (∀ c ∈ sanitizeTag input, safeTagByte c) ∧
      (∀ c ∈ sanitizeTag input, c ∉ str ",|#:\n") := by
  have hunk : str "unknown" = [117, 110, 107, 110, 111, 119, 110] := by decide
  have hsafe : ∀ c ∈ sanitizeTag input, safeTagByte c := by
    intro c hc
    rw [sanitizeTag_eq] at hc
    split at hc
    · rw [hunk] at hc
      rw [safeTagByte_iff]
      simp only [List.mem_cons, List.mem_singleton, List.not_mem_nil, or_false] at hc
      omega
    · obtain ⟨b, _, hb⟩ := List.mem_flatMap.mp hc
      exact specChar_safe b c hb
  refine ⟨?_, ?_, hsafe, ?_⟩
  · rw [sanitizeTag_eq]
    split
    · rw [hunk]; simp
    · assumption
  · rw [sanitizeTag_eq]
    split
    · rw [hunk]; simp
    · have h1 := flatMap_specChar_length_le (input.take 50)
      have h2 : (input.take 50).length ≤ 50 := by
        rw [List.length_take]; omega
      omega
  · intro c hc hbad
    have h := (safeTagByte_iff c).mp (hsafe c hc)
    have hb : str ",|#:\n" = [44, 124, 35, 58, 10] := by decide
    rw [hb] at hbad
    simp only [List.mem_cons, List.mem_singleton, List.not_mem_nil, or_false] at hbad
    omega

/-! ### The client: one write per metric, in the wire format -/

theorem Count_eq (c : client) (name : GoString) (value : Int) (tags : List GoString) (w : World) :
    c.Count name value tags w = c.send .counter (wireLine c.pfx name value (str "c") tags) w := by
  have hc : str "|c" = str "|" ++ str "c" := by decide
  unfold client.Count wireLine
  cases tags with
  | nil => simp [hc, List.append_assoc]
  | cons t ts => simp [hc, List.append_assoc]

theorem Timing_eq (c : client) (name : GoString) (duration : Int) (tags : List GoString)
    (w : World) :
    c.Timing name duration tags w =
      c.send .timing (wireLine c.pfx name (Int.tdiv duration 1000000) (str "ms") tags) w := by
  have hc : str "|ms" = str "|" ++ str "ms" := by decide
  unfold client.Timing wireLine Milliseconds
  cases tags with
  | nil => simp [hc, List.append_assoc]
  | cons t ts => simp [hc, List.append_assoc]

theorem formatInt_samples :
    formatInt 1 = str "1" ∧ formatInt 0 = str "0" ∧ formatInt 1250 = str "1250" ∧
      formatInt (-37) = str "-37" ∧
      Int.tdiv 1999999 1000000 = 1 ∧ Int.tdiv (-1999999) 1000000 = -1 := by
  decide

/-- C8: `Count(name, value, tags)` performs exactly one write, of the payload
`prefix.name:value|c`, then `|#` and the tags joined by `,` exactly when there is
a tag, then one newline; `Timing(name, d, tags)` does the same with type `ms` and
the value `d / 1000000` truncated toward zero; `Increment(name, tags)` is
`Count(name, 1, tags)`; each returns the error of its write. -/
theorem client_wire_format (c : client) (name : GoString) (value duration : Int)
    (tags : List GoString) (w : World) :
    c.Count name value tags w =
        (c.conn.Write w.sent.length
            (c.pfx ++ str "." ++ name ++ str ":" ++ formatInt value ++ str "|" ++ str "c" ++
              (if tags = [] then [] else str "|#" ++ stringsJoin tags (str ",")) ++ str "\n"),
          { w with sent := w.sent ++ [⟨.counter,
            c.pfx ++ str "." ++ name ++ str ":" ++ formatInt value ++ str "|" ++ str "c" ++
              (if tags = [] then [] else str "|#" ++ stringsJoin tags (str ",")) ++ str "\n"⟩] }) ∧
      c.Timing name duration tags w =
        (c.conn.Write w.sent.length
            (c.pfx ++ str "." ++ name ++ str ":" ++ formatInt (Int.tdiv duration 1000000) ++
              str "|" ++ str "ms" ++
              (if tags = [] then [] else str "|#" ++ stringsJoin tags (str ",")) ++ str "\n"),
          { w with sent := w.sent ++ [⟨.timing,
            c.pfx ++ str "." ++ name ++ str ":" ++ formatInt (Int.tdiv duration 1000000) ++
              str "|" ++ str "ms" ++
              (if tags = [] then [] else str "|#" ++ stringsJoin tags (str ",")) ++ str "\n"⟩] }) ∧
      c.Increment name tags w = c.Count name 1 tags w := by
  refine ⟨?_, ?_, rfl⟩
  · rw [Count_eq]; rfl
  · rw [Timing_eq]; rfl

/-! ### The request tracker: what each operation sends -/

theorem issued_append (w w2 : World) (ps : List Packet) (h : w2.sent = w.sent ++ ps) :
    issued w w2 = ps := by
  unfold issued
  rw [h, List.drop_left]

/-- A counter followed, unless its write failed, by a timing: the shape shared
by `Succeeded`, `Failed` and `FailedWithError`. -/
theorem counter_then_timing (rt : requestTracker) (suffix : GoString)
    (ctags ttags : List GoString) (w : World) :
    (match rt.client.Increment (rt.metricName suffix) ctags (timeSince rt.startTime w).2 with
      | (some err, w1) => (some err, w1)
      | (none, w1) =>
        rt.client.Timing (rt.metricName (str "timing")) (timeSince rt.startTime w).1 ttags w1).2.sent
      = w.sent ++ rt.counterPacket suffix ctags ::
          (if rt.accepts w (rt.counterPacket suffix ctags) then [rt.timingPacket w ttags] else []) := by
  unfold client.Increment
  rw [Count_eq]
  unfold client.send requestTracker.accepts requestTracker.counterPacket
  simp only [timeSince, timeNow]
  cases hW : rt.client.conn.Write w.sent.length
      (wireLine rt.client.pfx (rt.metricName suffix) 1 (str "c") ctags) with
  | some e => simp
  | none =>
    simp only [Timing_eq, client.send, Option.isNone_none, if_true, requestTracker.timingPacket]
    simp

theorem Succeeded_sent (rt : requestTracker) (w : World) :
    issued w (rt.Succeeded w).2 =
      rt.counterPacket (str "succeeded") [] ::
        (if rt.accepts w (rt.counterPacket (str "succeeded") []) then
          [rt.timingPacket w [str "status:success"]] else []) :=
  issued_append _ _ _ (counter_then_timing rt (str "succeeded") [] [str "status:success"] w)

theorem Failed_sent (rt : requestTracker) (w : World) :
    issued w (rt.Failed w).2 =
      rt.counterPacket (str "failed") [] ::
        (if rt.accepts w (rt.counterPacket (str "failed") []) then
          [rt.timingPacket w [str "status:failed"]] else []) :=
  issued_append _ _ _ (counter_then_timing rt (str "failed") [] [str "status:failed"] w)

theorem FailedWithError_sent (rt : requestTracker) (err : Option GoError) (w : World) :
    issued w (rt.FailedWithError err w).2 =
      rt.counterPacket (str "failed") [str "error:" ++ errorTag err] ::
        (if rt.accepts w (rt.counterPacket (str "failed") [str "error:" ++ errorTag err]) then
          [rt.timingPacket w [str "status:failed", str "error:" ++ errorTag err]] else []) := by
  have h := counter_then_timing rt (str "failed") [str "error:" ++ errorTag err]
    [str "status:failed", str "error:" ++ errorTag err] w
  refine issued_append _ _ _ ?_
  cases err <;> exact h

theorem Finished_sent (rt : requestTracker) (w : World) :
    issued w (rt.Finished w).2 = [rt.timingPacket w [str "status:finished"]] := by
  refine issued_append _ _ _ ?_
  unfold requestTracker.Finished
  simp only [timeSince, timeNow, Timing_eq, client.send, requestTracker.timingPacket]

theorem Start_sent (c : client) (serviceName methodName : GoString) (w : World) :
    issued w (c.Start serviceName methodName w).2 =
      [(c.Start serviceName methodName w).1.counterPacket (str "started") []] := by
  refine issued_append _ _ _ ?_
  unfold client.Start client.Increment
  simp only [timeNow, Count_eq, client.send, requestTracker.counterPacket]

theorem Start_tracker (c : client) (serviceName methodName : GoString) (w : World) :
    (c.Start serviceName methodName w).1 =
      { client := c, serviceName := serviceName, methodName := methodName,
        startTime := w.clock w.reads } := by
  unfold client.Start
  simp only [timeNow]

/-- C5 (as stated, refuted): on a connection that refuses the write of the
counter, `Succeeded()` issues one counter and no timing metric. -/
theorem Succeeded_refused_issues_no_timing :
    countOf .counter (issued freshWorld (refusedTracker.Succeeded freshWorld).2) = 1 ∧
      countOf .timing (issued freshWorld (refusedTracker.Succeeded freshWorld).2) = 0 ∧
      (refusedTracker.Succeeded freshWorld).1 = some (.new 0 (str "write: connection refused")) := by
  decide

/-- The error a counter followed by a guarded timing returns: the error of the
counter write when there is one, the result of the timing write otherwise. -/
theorem counter_then_timing_returned (rt : requestTracker) (suffix : GoString)
    (ctags ttags : List GoString) (w : World) :
    (match rt.client.Increment (rt.metricName suffix) ctags (timeSince rt.startTime w).2 with
      | (some err, w1) => (some err, w1)
      | (none, w1) =>
        rt.client.Timing (rt.metricName (str "timing")) (timeSince rt.startTime w).1 ttags w1).1
      = (match rt.client.conn.Write w.sent.length (rt.counterPacket suffix ctags).payload with
          | some e => some e
          | none =>
            rt.client.conn.Write (w.sent.length + 1) (rt.timingPacket w ttags).payload) := by
  unfold client.Increment
  rw [Count_eq]
  unfold client.send requestTracker.counterPacket
  simp only [timeSince, timeNow]
  cases hW : rt.client.conn.Write w.sent.length
      (wireLine rt.client.pfx (rt.metricName suffix) 1 (str "c") ctags) with
  | some e => simp
  | none =>
    simp only [Timing_eq, client.send, requestTracker.timingPacket]
    simp

theorem FailedWithError_returned (rt : requestTracker) (err : Option GoError) (w : World) :
    (rt.FailedWithError err w).1 =
      (match rt.client.conn.Write w.sent.length
          (rt.counterPacket (str "failed") [str "error:" ++ errorTag err]).payload with
        | some e => some e
        | none =>
          rt.client.conn.Write (w.sent.length + 1)
            (rt.timingPacket w [str "status:failed", str "error:" ++ errorTag err]).payload) := by
  have h := counter_then_timing_returned rt (str "failed") [str "error:" ++ errorTag err]
    [str "status:failed", str "error:" ++ errorTag err] w
  cases err <;> exact h

theorem Finished_returned (rt : requestTracker) (w : World) :
    (rt.Finished w).1 =
      rt.client.conn.Write w.sent.length (rt.timingPacket w [str "status:finished"]).payload := by
  unfold requestTracker.Finished
  simp only [timeSince, timeNow, Timing_eq, client.send, requestTracker.timingPacket]

/-- C5 (amended): in every state (whatever was called before) each of
`Succeeded()`, `Failed()` and `FailedWithError(err)` issues exactly one counter
metric; when the write of that counter returns an error the operation returns
that error and issues no timing metric; when it returns none the operation
issues exactly one timing metric and returns what the write of the timing
returns. `Finished()` issues exactly one timing metric and no counter, whether
or not its write succeeds, and returns what that write returns. -/
theorem tracker_metric_counts (rt : requestTracker) (err : Option GoError) (w : World) :
    (countOf .counter (issued w (rt.Succeeded w).2) = 1 ∧
      countOf .timing (issued w (rt.Succeeded w).2) =
        (if rt.accepts w (rt.counterPacket (str "succeeded") []) then 1 else 0) ∧
      (rt.Succeeded w).1 =
        (match rt.client.conn.Write w.sent.length
            (rt.counterPacket (str "succeeded") []).payload with
          | some e => some e
          | none =>
            rt.client.conn.Write (w.sent.length + 1)
              (rt.timingPacket w [str "status:success"]).payload)) ∧
    (countOf .counter (issued w (rt.Failed w).2) = 1 ∧
      countOf .timing (issued w (rt.Failed w).2) =
        (if rt.accepts w (rt.counterPacket (str "failed") []) then 1 else 0) ∧
      (rt.Failed w).1 =
        (match rt.client.conn.Write w.sent.length
            (rt.counterPacket (str "failed") []).payload with
          | some e => some e
          | none =>
            rt.client.conn.Write (w.sent.length + 1)
              (rt.timingPacket w [str "status:failed"]).payload)) ∧
    (countOf .counter (issued w (rt.FailedWithError err w).2) = 1 ∧
      countOf .timing (issued w (rt.FailedWithError err w).2) =
        (if rt.accepts w (rt.counterPacket (str "failed") [str "error:" ++ errorTag err])
        then 1 else 0) ∧
      (rt.FailedWithError err w).1 =
        (match rt.client.conn.Write w.sent.length
            (rt.counterPacket (str "failed") [str "error:" ++ errorTag err]).payload with
          | some e => some e
          | none =>
            rt.client.conn.Write (w.sent.length + 1)
              (rt.timingPacket w
                [str "status:failed", str "error:" ++ errorTag err]).payload)) ∧
    (countOf .counter (issued w (rt.Finished w).2) = 0 ∧
      countOf .timing (issued w (rt.Finished w).2) = 1 ∧
      (rt.Finished w).1 =
        rt.client.conn.Write w.sent.length
          (rt.timingPacket w [str "status:finished"]).payload) ∧
    -- whether a packet is accepted is whether its write returns no error
    (∀ p : Packet, rt.accepts w p = true ↔ rt.client.conn.Write w.sent.length p.payload = none) := by
  rw [Succeeded_sent, Failed_sent, FailedWithError_sent, Finished_sent]
  refine ⟨⟨?_, ?_, counter_then_timing_returned rt (str "succeeded") [] [str "status:success"] w⟩,
    ⟨?_, ?_, counter_then_timing_returned rt (str "failed") [] [str "status:failed"] w⟩,
    ⟨?_, ?_, FailedWithError_returned rt err w⟩, ⟨?_, ?_, Finished_returned rt w⟩, ?_⟩
  all_goals first
    | (intro p
       unfold requestTracker.accepts
       exact Option.isNone_iff_eq_none)
    | ((try split) <;>
        simp [countOf, requestTracker.counterPacket, requestTracker.timingPacket])

/-- C6 (as stated, refuted): on a connection that refuses the write of the
counter, `FailedWithError(nil)` sends the "failed" counter tagged
`error:unknown` and nothing else: no timing. -/
theorem FailedWithError_refused_sends_only_counter :
    issued freshWorld (refusedTracker.FailedWithError none freshWorld).2 =
      [⟨.counter, str "portfolio_grpc.api.skills.GetSkill.failed:1|c|#error:unknown\n"⟩] := by
  decide

/-- C6 (amended): `Succeeded()` sends the counter with suffix "succeeded" and,
when the write of that counter returns no error, a timing tagged exactly
`status:success`; `Failed()` likewise with suffix "failed" and `status:failed`;
`FailedWithError(err)` sends the "failed" counter tagged `error:s` and, when that
write returns no error, a timing tagged `status:failed`, `error:s`, where `s` is
`sanitizeTag(err.Error())` for a non-nil `err` and "unknown" for nil;
`Finished()` sends a timing tagged exactly `status:finished`. Nothing else is
sent. -/
theorem tracker_lines (rt : requestTracker) (w : World) :
    issued w (rt.Succeeded w).2 =
        rt.counterPacket (str "succeeded") [] ::
          (if rt.accepts w (rt.counterPacket (str "succeeded") []) then
            [rt.timingPacket w [str "status:success"]] else []) ∧
      issued w (rt.Failed w).2 =
        rt.counterPacket (str "failed") [] ::
          (if rt.accepts w (rt.counterPacket (str "failed") []) then
            [rt.timingPacket w [str "status:failed"]] else []) ∧
      issued w (rt.Finished w).2 = [rt.timingPacket w [str "status:finished"]] ∧
      (∀ e : GoError, issued w (rt.FailedWithError (some e) w).2 =
        rt.counterPacket (str "failed") [str "error:" ++ sanitizeTag e.Error] ::
          (if rt.accepts w (rt.counterPacket (str "failed") [str "error:" ++ sanitizeTag e.Error])
            then [rt.timingPacket w [str "status:failed", str "error:" ++ sanitizeTag e.Error]]
            else [])) ∧
      issued w (rt.FailedWithError none w).2 =
        rt.counterPacket (str "failed") [str "error:" ++ str "unknown"] ::
          (if rt.accepts w (rt.counterPacket (str "failed") [str "error:" ++ str "unknown"])
            then [rt.timingPacket w [str "status:failed", str "error:" ++ str "unknown"]]
            else []) :=
  ⟨Succeeded_sent rt w, Failed_sent rt w, Finished_sent rt w,
    fun e => FailedWithError_sent rt (some e) w, FailedWithError_sent rt none w⟩

/-! ### Metric names -/

theorem wireLine_metricName (rt : requestTracker) (suffix : GoString) (value : Int)
    (typ : GoString) (tags : List GoString) :
    wireLine rt.client.pfx (rt.metricName suffix) value typ tags =
      rt.client.pfx ++ str ".api." ++ rt.serviceName ++ str "." ++ rt.methodName ++ str "." ++
        suffix ++ str ":" ++
        (formatInt value ++ str "|" ++ typ ++
          (if tags = [] then [] else str "|#" ++ stringsJoin tags (str ",")) ++ str "\n") := by
  have h : str ".api." = str "." ++ str "api." := by decide
  unfold wireLine requestTracker.metricName
  simp only [h, List.append_assoc]

theorem counterPacket_namedFor (rt : requestTracker) (suffix : GoString) (tags : List GoString)
    (hs : suffix ∈ [str "started", str "succeeded", str "failed", str "timing"]) :
    namedFor rt.client.pfx rt.serviceName rt.methodName (rt.counterPacket suffix tags) :=
  ⟨suffix, hs, _, wireLine_metricName rt suffix 1 (str "c") tags⟩

theorem timingPacket_namedFor (rt : requestTracker) (w : World) (tags : List GoString) :
    namedFor rt.client.pfx rt.serviceName rt.methodName (rt.timingPacket w tags) :=
  ⟨str "timing", by simp, _, wireLine_metricName rt (str "timing") _ (str "ms") tags⟩

theorem call_namedFor (rt : requestTracker) (op : TrackerOp) (w : World) (p : Packet)
    (hp : p ∈ issued w (rt.call op w).2) :
    namedFor rt.client.pfx rt.serviceName rt.methodName p := by
  have hsu : str "succeeded" ∈ [str "started", str "succeeded", str "failed", str "timing"] := by
    simp
  have hfa : str "failed" ∈ [str "started", str "succeeded", str "failed", str "timing"] := by
    simp
  cases op with
  | Succeeded =>
    simp only [requestTracker.call] at hp
    rw [Succeeded_sent] at hp
    rcases List.mem_cons.mp hp with h | h
    · rw [h]; exact counterPacket_namedFor rt _ _ hsu
    · split at h
      · rw [List.mem_singleton.mp h]; exact timingPacket_namedFor rt w _
      · simp at h
  | Failed =>
    simp only [requestTracker.call] at hp
    rw [Failed_sent] at hp
    rcases List.mem_cons.mp hp with h | h
    · rw [h]; exact counterPacket_namedFor rt _ _ hfa
    · split at h
      · rw [List.mem_singleton.mp h]; exact timingPacket_namedFor rt w _
      · simp at h
  | FailedWithError err =>
    simp only [requestTracker.call] at hp
    rw [FailedWithError_sent] at hp
    rcases List.mem_cons.mp hp with h | h
    · rw [h]; exact counterPacket_namedFor rt _ _ hfa
    · split at h
      · rw [List.mem_singleton.mp h]; exact timingPacket_namedFor rt w _
      · simp at h
  | Finished =>
    simp only [requestTracker.call] at hp
    rw [Finished_sent] at hp
    rw [List.mem_singleton.mp hp]; exact timingPacket_namedFor rt w _

/-- C7 (as stated, refuted): with prefix `portfolio_grpc`, `Start("skills",
"ListSkills")` sends the line `portfolio_grpc.api.skills.ListSkills.started:1|c`,
whose name does not start with `portfolio_grpc.skills.`: the segment `api`
stands between the prefix and the subject. -/
theorem Start_line_has_api_segment :
    (issued freshWorld (healthyClient.Start (str "skills") (str "ListSkills") freshWorld).2).map
        Packet.payload = [str "portfolio_grpc.api.skills.ListSkills.started:1|c\n"] ∧
      (str "portfolio_grpc.skills.ListSkills.started:").isPrefixOf
        (str "portfolio_grpc.api.skills.ListSkills.started:1|c\n") = false := by
  decide

/-- C7 (amended): for every client prefix `p` and every tracker started with
`Start(subject, operation)`, each line the tracker sends (the "started" counter
of `Start` and the lines of the four terminal operations) has the name
`p.api.subject.operation.suffix`, the suffix being one of started, succeeded,
failed, timing: the line has the form `prefix.api.subject.operation.suffix:value|type`. -/
theorem tracker_metric_names (c : client) (subject operation : GoString) (w : World) :
    (∀ p ∈ issued w (c.Start subject operation w).2, namedFor c.pfx subject operation p) ∧
      ∀ (op : TrackerOp) (w2 : World),
        ∀ p ∈ issued w2 ((c.Start subject operation w).1.call op w2).2,
          namedFor c.pfx subject operation p := by
  constructor
  · intro p hp
    rw [Start_sent, List.mem_singleton, Start_tracker] at hp
    rw [hp]
    exact counterPacket_namedFor
      { client := c, serviceName := subject, methodName := operation,
        startTime := w.clock w.reads } (str "started") [] (by simp)
  · intro op w2 p hp
    rw [Start_tracker] at hp
    exact call_namedFor
      { client := c, serviceName := subject, methodName := operation,
        startTime := w.clock w.reads } op w2 p hp

/-- C7 (amended) at the "started" line of `Start("skills", "ListSkills")` on a
client with prefix `portfolio_grpc`. -/
theorem tracker_metric_names_witness :
    namedFor (str "portfolio_grpc") (str "skills") (str "ListSkills")
      ⟨.counter, str "portfolio_grpc.api.skills.ListSkills.started:1|c\n"⟩ :=
  (tracker_metric_names healthyClient (str "skills") (str "ListSkills") freshWorld).1
    ⟨.counter, str "portfolio_grpc.api.skills.ListSkills.started:1|c\n"⟩ (by decide)

/-! ### The no-op sink -/

/-- C9: for the sink returned by `Nop()`, `Increment`, `Count`, `Timing` and
`Close` return no error for every argument, `Start` returns a tracker for every
subject and operation, and `Succeeded`, `Failed`, `FailedWithError` (for every
error, nil included) and `Finished` on that tracker return no error; each leaves
the state, and so the packets written, as it was. -/
theorem nop_sink_is_silent (W : Type) (w w2 : W) (name subject operation : GoString)
    (value duration : Int) (tags : List GoString) (err : Option GoError) :
    (Nop W).Increment name tags w = (none, w) ∧
      (Nop W).Count name value tags w = (none, w) ∧
      (Nop W).Timing name duration tags w = (none, w) ∧
      (Nop W).Close w = (none, w) ∧
      ((Nop W).Start subject operation w).2 = w ∧
      ((Nop W).Start subject operation w).1.Succeeded w2 = (none, w2) ∧
      ((Nop W).Start subject operation w).1.Failed w2 = (none, w2) ∧
      ((Nop W).Start subject operation w).1.FailedWithError err w2 = (none, w2) ∧
      ((Nop W).Start subject operation w).1.Finished w2 = (none, w2) :=
  ⟨rfl, rfl, rfl, rfl, rfl, rfl, rfl, rfl, rfl⟩

end statsd

namespace repositories

variable {W Ctx Skill Experience Education : Type}

/-! ### The calls of a metrics-decorated operation -/

/-- Observation changes nothing: an observed run of a decorated operation
returns what the plain run returns and leaves the state the plain run leaves. -/
theorem observation_is_transparent (sink : statsd.Client W)
    (skills : SkillsRepository W Ctx Skill)
    (experiences : ExperiencesRepository W Ctx Experience)
    (educations : EducationsRepository W Ctx Education)
    (ctx : Ctx) (id : Int) (w : W) (log : List Call) :
    (fun r : (Option (List Skill) × Option GoError) × (W × List Call) => (r.1, r.2.1))
        ((skillsMetricsRepositoryImpl.mk (observeSkills skills) (observeClient sink)).ListSkills
          ctx (w, log)) =
      (skillsMetricsRepositoryImpl.mk skills sink).ListSkills ctx w ∧
    (fun r : (Option Skill × Option GoError) × (W × List Call) => (r.1, r.2.1))
        ((skillsMetricsRepositoryImpl.mk (observeSkills skills) (observeClient sink)).GetSkill
          ctx id (w, log)) =
      (skillsMetricsRepositoryImpl.mk skills sink).GetSkill ctx id w ∧
    (fun r : (Option (List Experience) × Option GoError) × (W × List Call) => (r.1, r.2.1))
        ((experiencesMetricsRepositoryImpl.mk (observeExperiences experiences)
          (observeClient sink)).ListExperiences ctx (w, log)) =
      (experiencesMetricsRepositoryImpl.mk experiences sink).ListExperiences ctx w ∧
    (fun r : (Option Experience × Option GoError) × (W × List Call) => (r.1, r.2.1))
        ((experiencesMetricsRepositoryImpl.mk (observeExperiences experiences)
          (observeClient sink)).GetExperience ctx id (w, log)) =
      (experiencesMetricsRepositoryImpl.mk experiences sink).GetExperience ctx id w ∧
    (fun r : (Option (List Education) × Option GoError) × (W × List Call) => (r.1, r.2.1))
        ((educationsMetricsRepositoryImpl.mk (observeEducations educations)
          (observeClient sink)).ListEducations ctx (w, log)) =
      (educationsMetricsRepositoryImpl.mk educations sink).ListEducations ctx w ∧
    (fun r : (Option Education × Option GoError) × (W × List Call) => (r.1, r.2.1))
        ((educationsMetricsRepositoryImpl.mk (observeEducations educations)
          (observeClient sink)).GetEducation ctx id (w, log)) =
      (educationsMetricsRepositoryImpl.mk educations sink).GetEducation ctx id w := by
  refine ⟨?_, ?_, ?_, ?_, ?_, ?_⟩
  · simp only [skillsMetricsRepositoryImpl.ListSkills, observeSkills, observeClient,
      observeTracker, logged]
    cases h : (skills.ListSkills ctx (sink.Start (str "skills") (str "ListSkills") w).2).1.2 <;>
      simp
  · simp only [skillsMetricsRepositoryImpl.GetSkill, observeSkills, observeClient,
      observeTracker, logged]
    cases h : (skills.GetSkill ctx id (sink.Start (str "skills") (str "GetSkill") w).2).1.2 <;>
      simp
  · simp only [experiencesMetricsRepositoryImpl.ListExperiences, observeExperiences,
      observeClient, observeTracker, logged]
    cases h : (experiences.ListExperiences ctx
      (sink.Start (str "experiences") (str "ListExperiences") w).2).1.2 <;>
      simp
  · simp only [experiencesMetricsRepositoryImpl.GetExperience, observeExperiences,
      observeClient, observeTracker, logged]
    cases h : (experiences.GetExperience ctx id
      (sink.Start (str "experiences") (str "GetExperience") w).2).1.2 <;>
      simp
  · simp only [educationsMetricsRepositoryImpl.ListEducations, observeEducations,
      observeClient, observeTracker, logged]
    cases h : (educations.ListEducations ctx
      (sink.Start (str "educations") (str "ListEducations") w).2).1.2 <;>
      simp
  · simp only [educationsMetricsRepositoryImpl.GetEducation, observeEducations,
      observeClient, observeTracker, logged]
    cases h : (educations.GetEducation ctx id
      (sink.Start (str "educations") (str "GetEducation") w).2).1.2 <;>
      simp

/-- C10: each of the six decorated operations, run with any sink and any wrapped
repository, makes exactly these calls, in this order: `Start` with the entity
subject and its own operation name, the wrapped operation (with the same
identifier), then `FailedWithError(err)` when the wrapped call returned the
error `err` and `Succeeded()` when it returned none, and last `Finished()`. -/
theorem decorated_call_sequence (sink : statsd.Client W)
    (skills : SkillsRepository W Ctx Skill)
    (experiences : ExperiencesRepository W Ctx Experience)
    (educations : EducationsRepository W Ctx Education)
    (ctx : Ctx) (id : Int) (w : W) (log : List Call) :
    ((skillsMetricsRepositoryImpl.mk (observeSkills skills) (observeClient sink)).ListSkills
        ctx (w, log)).2.2 =
      log ++ [.Start (str "skills") (str "ListSkills"), .Wrapped (str "ListSkills") none,
        outcomeCall (skills.ListSkills ctx (sink.Start (str "skills") (str "ListSkills") w).2).1.2,
        .Finished] ∧
    ((skillsMetricsRepositoryImpl.mk (observeSkills skills) (observeClient sink)).GetSkill
        ctx id (w, log)).2.2 =
      log ++ [.Start (str "skills") (str "GetSkill"), .Wrapped (str "GetSkill") (some id),
        outcomeCall (skills.GetSkill ctx id (sink.Start (str "skills") (str "GetSkill") w).2).1.2,
        .Finished] ∧
    ((experiencesMetricsRepositoryImpl.mk (observeExperiences experiences)
        (observeClient sink)).ListExperiences ctx (w, log)).2.2 =
      log ++ [.Start (str "experiences") (str "ListExperiences"),
        .Wrapped (str "ListExperiences") none,
        outcomeCall (experiences.ListExperiences ctx
          (sink.Start (str "experiences") (str "ListExperiences") w).2).1.2,
        .Finished] ∧
    ((experiencesMetricsRepositoryImpl.mk (observeExperiences experiences)
        (observeClient sink)).GetExperience ctx id (w, log)).2.2 =
      log ++ [.Start (str "experiences") (str "GetExperience"),
        .Wrapped (str "GetExperience") (some id),
        outcomeCall (experiences.GetExperience ctx id
          (sink.Start (str "experiences") (str "GetExperience") w).2).1.2,
        .Finished] ∧
    ((educationsMetricsRepositoryImpl.mk (observeEducations educations)
        (observeClient sink)).ListEducations ctx (w, log)).2.2 =
      log ++ [.Start (str "educations") (str "ListEducations"),
        .Wrapped (str "ListEducations") none,
        outcomeCall (educations.ListEducations ctx
          (sink.Start (str "educations") (str "ListEducations") w).2).1.2,
        .Finished] ∧
    ((educationsMetricsRepositoryImpl.mk (observeEducations educations)
        (observeClient sink)).GetEducation ctx id (w, log)).2.2 =
      log ++ [.Start (str "educations") (str "GetEducation"),
        .Wrapped (str "GetEducation") (some id),
        outcomeCall (educations.GetEducation ctx id
          (sink.Start (str "educations") (str "GetEducation") w).2).1.2,
        .Finished] := by
  refine ⟨?_, ?_, ?_, ?_, ?_, ?_⟩
  · simp only [skillsMetricsRepositoryImpl.ListSkills, observeSkills, observeClient,
      observeTracker, logged]
    cases h : (skills.ListSkills ctx (sink.Start (str "skills") (str "ListSkills") w).2).1.2 <;>
      simp [outcomeCall]
  · simp only [skillsMetricsRepositoryImpl.GetSkill, observeSkills, observeClient,
      observeTracker, logged]
    cases h : (skills.GetSkill ctx id (sink.Start (str "skills") (str "GetSkill") w).2).1.2 <;>
      simp [outcomeCall]
  · simp only [experiencesMetricsRepositoryImpl.ListExperiences, observeExperiences,
      observeClient, observeTracker, logged]
    cases h : (experiences.ListExperiences ctx
      (sink.Start (str "experiences") (str "ListExperiences") w).2).1.2 <;>
      simp [outcomeCall]
  · simp only [experiencesMetricsRepositoryImpl.GetExperience, observeExperiences,
      observeClient, observeTracker, logged]
    cases h : (experiences.GetExperience ctx id
      (sink.Start (str "experiences") (str "GetExperience") w).2).1.2 <;>
      simp [outcomeCall]
  · simp only [educationsMetricsRepositoryImpl.ListEducations, observeEducations,
      observeClient, observeTracker, logged]
    cases h : (educations.ListEducations ctx
      (sink.Start (str "educations") (str "ListEducations") w).2).1.2 <;>
      simp [outcomeCall]
  · simp only [educationsMetricsRepositoryImpl.GetEducation, observeEducations,
      observeClient, observeTracker, logged]
    cases h : (educations.GetEducation ctx id
      (sink.Start (str "educations") (str "GetEducation") w).2).1.2 <;>
      simp [outcomeCall]

end repositories


namespace repositories

variable {W S S2 D Ctx Skill Experience Education : Type}

/-! ### The result of a metrics-decorated operation -/

theorem decorated_beside {α : Type} (sink : statsd.Client S) (subject operation : GoString)
    (call : D → (Option α × Option GoError) × D) (x : S) (d : D) :
    (decorated (sinkBeside D sink) subject operation (onSecond call) (x, d)).1 =
        passedOn (call d).1 ∧
      (decorated (sinkBeside D sink) subject operation (onSecond call) (x, d)).2.2 =
        (call d).2 := by
  simp only [decorated, sinkBeside, trackerBeside, onFirst, onSecond, passedOn]
  cases h : (call d).1.2 <;> simp

theorem decorated_wrappedCalls {α : Type} (sink : statsd.Client W) (subject operation : GoString)
    (call : W → (Option α × Option GoError) × W) (method : GoString) (id : Option Int) (w : W) :
    wrappedCalls (decorated (observeClient sink) subject operation
      (logged (.Wrapped method id) call) (w, [])).2.2 = [.Wrapped method id] := by
  simp only [decorated, observeClient, observeTracker, logged, wrappedCalls]
  cases h : (call (sink.Start subject operation w).2).1.2 <;> simp

/-- C11: for every sink (one whose every operation returns an error included)
and every wrapped repository, each of the six decorated operations calls the
wrapped operation exactly once, with the same identifier, and returns its
outcome: the wrapped error alone, unchanged, on failure, and the wrapped value
with no error on success; the repository is left as that one call leaves it. So
the result is the same with any two sinks. -/
theorem decorated_result (sink : statsd.Client S) (sink2 : statsd.Client S2)
    (skills : SkillsRepository D Ctx Skill)
    (experiences : ExperiencesRepository D Ctx Experience)
    (educations : EducationsRepository D Ctx Education)
    (ctx : Ctx) (id : Int) (x : S) (x2 : S2) (d : D) :
    -- the outcome and the state of the repository
    (((skillsMetricsRepositoryImpl.mk (skillsBeside S skills) (sinkBeside D sink)).ListSkills
          ctx (x, d)).1 = passedOn (skills.ListSkills ctx d).1 ∧
      ((skillsMetricsRepositoryImpl.mk (skillsBeside S skills) (sinkBeside D sink)).ListSkills
          ctx (x, d)).2.2 = (skills.ListSkills ctx d).2) ∧
    (((skillsMetricsRepositoryImpl.mk (skillsBeside S skills) (sinkBeside D sink)).GetSkill
          ctx id (x, d)).1 = passedOn (skills.GetSkill ctx id d).1 ∧
      ((skillsMetricsRepositoryImpl.mk (skillsBeside S skills) (sinkBeside D sink)).GetSkill
          ctx id (x, d)).2.2 = (skills.GetSkill ctx id d).2) ∧
    (((experiencesMetricsRepositoryImpl.mk (experiencesBeside S experiences)
          (sinkBeside D sink)).ListExperiences ctx (x, d)).1 =
        passedOn (experiences.ListExperiences ctx d).1 ∧
      ((experiencesMetricsRepositoryImpl.mk (experiencesBeside S experiences)
          (sinkBeside D sink)).ListExperiences ctx (x, d)).2.2 =
        (experiences.ListExperiences ctx d).2) ∧
    (((experiencesMetricsRepositoryImpl.mk (experiencesBeside S experiences)
          (sinkBeside D sink)).GetExperience ctx id (x, d)).1 =
        passedOn (experiences.GetExperience ctx id d).1 ∧
      ((experiencesMetricsRepositoryImpl.mk (experiencesBeside S experiences)
          (sinkBeside D sink)).GetExperience ctx id (x, d)).2.2 =
        (experiences.GetExperience ctx id d).2) ∧
    (((educationsMetricsRepositoryImpl.mk (educationsBeside S educations)
          (sinkBeside D sink)).ListEducations ctx (x, d)).1 =
        passedOn (educations.ListEducations ctx d).1 ∧
      ((educationsMetricsRepositoryImpl.mk (educationsBeside S educations)
          (sinkBeside D sink)).ListEducations ctx (x, d)).2.2 =
        (educations.ListEducations ctx d).2) ∧
    (((educationsMetricsRepositoryImpl.mk (educationsBeside S educations)
          (sinkBeside D sink)).GetEducation ctx id (x, d)).1 =
        passedOn (educations.GetEducation ctx id d).1 ∧
      ((educationsMetricsRepositoryImpl.mk (educationsBeside S educations)
          (sinkBeside D sink)).GetEducation ctx id (x, d)).2.2 =
        (educations.GetEducation ctx id d).2) ∧
    -- the calls on the wrapped repository
    wrappedCalls ((skillsMetricsRepositoryImpl.mk (observeSkills (skillsBeside S skills))
        (observeClient (sinkBeside D sink))).ListSkills ctx ((x, d), [])).2.2 =
      [.Wrapped (str "ListSkills") none] ∧
    wrappedCalls ((skillsMetricsRepositoryImpl.mk (observeSkills (skillsBeside S skills))
        (observeClient (sinkBeside D sink))).GetSkill ctx id ((x, d), [])).2.2 =
      [.Wrapped (str "GetSkill") (some id)] ∧
    wrappedCalls ((experiencesMetricsRepositoryImpl.mk (observeExperiences (experiencesBeside S experiences))
        (observeClient (sinkBeside D sink))).ListExperiences ctx ((x, d), [])).2.2 =
      [.Wrapped (str "ListExperiences") none] ∧
    wrappedCalls ((experiencesMetricsRepositoryImpl.mk (observeExperiences (experiencesBeside S experiences))
        (observeClient (sinkBeside D sink))).GetExperience ctx id ((x, d), [])).2.2 =
      [.Wrapped (str "GetExperience") (some id)] ∧
    wrappedCalls ((educationsMetricsRepositoryImpl.mk (observeEducations (educationsBeside S educations))
        (observeClient (sinkBeside D sink))).ListEducations ctx ((x, d), [])).2.2 =
      [.Wrapped (str "ListEducations") none] ∧
    wrappedCalls ((educationsMetricsRepositoryImpl.mk (observeEducations (educationsBeside S educations))
        (observeClient (sinkBeside D sink))).GetEducation ctx id ((x, d), [])).2.2 =
      [.Wrapped (str "GetEducation") (some id)] ∧
    -- any two sinks
    ((skillsMetricsRepositoryImpl.mk (skillsBeside S skills) (sinkBeside D sink)).ListSkills
        ctx (x, d)).1 =
      ((skillsMetricsRepositoryImpl.mk (skillsBeside S2 skills) (sinkBeside D sink2)).ListSkills
        ctx (x2, d)).1 ∧
    ((skillsMetricsRepositoryImpl.mk (skillsBeside S skills) (sinkBeside D sink)).GetSkill
        ctx id (x, d)).1 =
      ((skillsMetricsRepositoryImpl.mk (skillsBeside S2 skills) (sinkBeside D sink2)).GetSkill
        ctx id (x2, d)).1 ∧
    ((experiencesMetricsRepositoryImpl.mk (experiencesBeside S experiences)
        (sinkBeside D sink)).ListExperiences ctx (x, d)).1 =
      ((experiencesMetricsRepositoryImpl.mk (experiencesBeside S2 experiences)
        (sinkBeside D sink2)).ListExperiences ctx (x2, d)).1 ∧
    ((experiencesMetricsRepositoryImpl.mk (experiencesBeside S experiences)
        (sinkBeside D sink)).GetExperience ctx id (x, d)).1 =
      ((experiencesMetricsRepositoryImpl.mk (experiencesBeside S2 experiences)
        (sinkBeside D sink2)).GetExperience ctx id (x2, d)).1 ∧
    ((educationsMetricsRepositoryImpl.mk (educationsBeside S educations)
        (sinkBeside D sink)).ListEducations ctx (x, d)).1 =
      ((educationsMetricsRepositoryImpl.mk (educationsBeside S2 educations)
        (sinkBeside D sink2)).ListEducations ctx (x2, d)).1 ∧
    ((educationsMetricsRepositoryImpl.mk (educationsBeside S educations)
        (sinkBeside D sink)).GetEducation ctx id (x, d)).1 =
      ((educationsMetricsRepositoryImpl.mk (educationsBeside S2 educations)
        (sinkBeside D sink2)).GetEducation ctx id (x2, d)).1 := by
  refine ⟨?_, ?_, ?_, ?_, ?_, ?_, ?_, ?_, ?_, ?_, ?_, ?_, ?_, ?_, ?_, ?_, ?_, ?_⟩
  · exact decorated_beside sink _ _ (skills.ListSkills ctx) x d
  · exact decorated_beside sink _ _ (skills.GetSkill ctx id) x d
  · exact decorated_beside sink _ _ (experiences.ListExperiences ctx) x d
  · exact decorated_beside sink _ _ (experiences.GetExperience ctx id) x d
  · exact decorated_beside sink _ _ (educations.ListEducations ctx) x d
  · exact decorated_beside sink _ _ (educations.GetEducation ctx id) x d
  · exact decorated_wrappedCalls (sinkBeside D sink) _ _ (onSecond (skills.ListSkills ctx)) _ _ (x, d)
  · exact decorated_wrappedCalls (sinkBeside D sink) _ _ (onSecond (skills.GetSkill ctx id)) _ _ (x, d)
  · exact decorated_wrappedCalls (sinkBeside D sink) _ _ (onSecond (experiences.ListExperiences ctx)) _ _ (x, d)
  · exact decorated_wrappedCalls (sinkBeside D sink) _ _ (onSecond (experiences.GetExperience ctx id)) _ _ (x, d)
  · exact decorated_wrappedCalls (sinkBeside D sink) _ _ (onSecond (educations.ListEducations ctx)) _ _ (x, d)
  · exact decorated_wrappedCalls (sinkBeside D sink) _ _ (onSecond (educations.GetEducation ctx id)) _ _ (x, d)
  · exact (decorated_beside sink _ _ (skills.ListSkills ctx) x d).1.trans
      (decorated_beside sink2 _ _ (skills.ListSkills ctx) x2 d).1.symm
  · exact (decorated_beside sink _ _ (skills.GetSkill ctx id) x d).1.trans
      (decorated_beside sink2 _ _ (skills.GetSkill ctx id) x2 d).1.symm
  · exact (decorated_beside sink _ _ (experiences.ListExperiences ctx) x d).1.trans
      (decorated_beside sink2 _ _ (experiences.ListExperiences ctx) x2 d).1.symm
  · exact (decorated_beside sink _ _ (experiences.GetExperience ctx id) x d).1.trans
      (decorated_beside sink2 _ _ (experiences.GetExperience ctx id) x2 d).1.symm
  · exact (decorated_beside sink _ _ (educations.ListEducations ctx) x d).1.trans
      (decorated_beside sink2 _ _ (educations.ListEducations ctx) x2 d).1.symm
  · exact (decorated_beside sink _ _ (educations.GetEducation ctx id) x d).1.trans
      (decorated_beside sink2 _ _ (educations.GetEducation ctx id) x2 d).1.symm

end repositories


namespace repositories

variable {D Ctx Skill Experience Education : Type}

/-! ### The lines of a decorated call on the real sink -/

theorem decorated_real_sink {α : Type} (c : statsd.client)
    (hW : ∀ (k : Nat) (b : GoString), c.conn.Write k b = none)
    (subject operation : GoString) (call : D → (Option α × Option GoError) × D)
    (w : statsd.World) (d : D) :
    statsd.issued w
        (decorated (sinkBeside D c.toClient) subject operation (onSecond call) (w, d)).2.1 =
      fourLines c subject operation w (call d).1.2 := by
  refine statsd.issued_append _ _ _ ?_
  simp only [decorated, sinkBeside, trackerBeside, onFirst, onSecond, statsd.client.toClient,
    statsd.requestTracker.toRequestTracker, statsd.client.Start, statsd.client.Increment,
    statsd.requestTracker.Succeeded, statsd.requestTracker.FailedWithError,
    statsd.requestTracker.Finished, statsd.Count_eq, statsd.Timing_eq, statsd.client.send,
    statsd.timeSince, statsd.timeNow, hW, fourLines, statsd.requestTracker.counterPacket,
    statsd.requestTracker.timingPacket]
  cases h : (call d).1.2 <;> simp

end repositories


namespace repositories

variable {D Ctx Skill Experience Education : Type}

/-- C16: each of the six decorated operations, run on the real sink with every
write succeeding, sends exactly four lines, in this order: the "started"
counter, the outcome counter ("succeeded", or "failed" tagged with the error),
a "timing" line tagged with the status of the outcome, and a second "timing"
line tagged `status:finished`; two of the four are timings, both under the name
of the tracker with suffix "timing". -/
theorem decorated_call_lines (c : statsd.client)
    (hW : ∀ (k : Nat) (b : GoString), c.conn.Write k b = none)
    (skills : SkillsRepository D Ctx Skill)
    (experiences : ExperiencesRepository D Ctx Experience)
    (educations : EducationsRepository D Ctx Education)
    (ctx : Ctx) (id : Int) (w : statsd.World) (d : D) :
    statsd.issued w ((skillsMetricsRepositoryImpl.mk (skillsBeside statsd.World skills)
        (sinkBeside D c.toClient)).ListSkills ctx (w, d)).2.1 =
      fourLines c (str "skills") (str "ListSkills") w (skills.ListSkills ctx d).1.2 ∧
    statsd.issued w ((skillsMetricsRepositoryImpl.mk (skillsBeside statsd.World skills)
        (sinkBeside D c.toClient)).GetSkill ctx id (w, d)).2.1 =
      fourLines c (str "skills") (str "GetSkill") w (skills.GetSkill ctx id d).1.2 ∧
    statsd.issued w ((experiencesMetricsRepositoryImpl.mk
        (experiencesBeside statsd.World experiences)
        (sinkBeside D c.toClient)).ListExperiences ctx (w, d)).2.1 =
      fourLines c (str "experiences") (str "ListExperiences") w
        (experiences.ListExperiences ctx d).1.2 ∧
    statsd.issued w ((experiencesMetricsRepositoryImpl.mk
        (experiencesBeside statsd.World experiences)
        (sinkBeside D c.toClient)).GetExperience ctx id (w, d)).2.1 =
      fourLines c (str "experiences") (str "GetExperience") w
        (experiences.GetExperience ctx id d).1.2 ∧
    statsd.issued w ((educationsMetricsRepositoryImpl.mk
        (educationsBeside statsd.World educations)
        (sinkBeside D c.toClient)).ListEducations ctx (w, d)).2.1 =
      fourLines c (str "educations") (str "ListEducations") w
        (educations.ListEducations ctx d).1.2 ∧
    statsd.issued w ((educationsMetricsRepositoryImpl.mk
        (educationsBeside statsd.World educations)
        (sinkBeside D c.toClient)).GetEducation ctx id (w, d)).2.1 =
      fourLines c (str "educations") (str "GetEducation") w
        (educations.GetEducation ctx id d).1.2 ∧
    -- what the four lines are
    (∀ (subject operation : GoString) (err : Option GoError),
      (fourLines c subject operation w err).map statsd.Packet.typ =
        [.counter, .counter, .timing, .timing] ∧
      statsd.countOf .timing (fourLines c subject operation w err) = 2 ∧
      (fourLines c subject operation w err).map statsd.Packet.payload =
        [ statsd.wireLine c.pfx
            (str "api." ++ subject ++ str "." ++ operation ++ str "." ++ str "started")
            1 (str "c") [],
          statsd.wireLine c.pfx
            (str "api." ++ subject ++ str "." ++ operation ++ str "." ++
              (if err = none then str "succeeded" else str "failed"))
            1 (str "c")
            (match err with
              | none => []
              | some e => [str "error:" ++ statsd.sanitizeTag e.Error]),
          statsd.wireLine c.pfx
            (str "api." ++ subject ++ str "." ++ operation ++ str "." ++ str "timing")
            (Int.tdiv (statsd.timeSub (w.clock (w.reads + 1)) (w.clock w.reads)) 1000000)
            (str "ms")
            (match err with
              | none => [str "status:success"]
              | some e => [str "status:failed", str "error:" ++ statsd.sanitizeTag e.Error]),
          statsd.wireLine c.pfx
            (str "api." ++ subject ++ str "." ++ operation ++ str "." ++ str "timing")
            (Int.tdiv (statsd.timeSub (w.clock (w.reads + 2)) (w.clock w.reads)) 1000000)
            (str "ms") [str "status:finished"] ]) := by
  refine ⟨?_, ?_, ?_, ?_, ?_, ?_, ?_⟩
  · exact decorated_real_sink c hW _ _ (skills.ListSkills ctx) w d
  · exact decorated_real_sink c hW _ _ (skills.GetSkill ctx id) w d
  · exact decorated_real_sink c hW _ _ (experiences.ListExperiences ctx) w d
  · exact decorated_real_sink c hW _ _ (experiences.GetExperience ctx id) w d
  · exact decorated_real_sink c hW _ _ (educations.ListEducations ctx) w d
  · exact decorated_real_sink c hW _ _ (educations.GetEducation ctx id) w d
  · intro subject operation err
    cases err <;>
      simp [fourLines, statsd.countOf, statsd.requestTracker.counterPacket,
        statsd.requestTracker.timingPacket, statsd.requestTracker.metricName]

set_option maxRecDepth 20000 in
/-- C16 on the sample repositories and a connection that accepts every write:
the four lines of a successful `ListSkills`, byte for byte. -/
theorem decorated_call_lines_witness :
    (∀ (k : Nat) (b : GoString), statsd.healthyClient.conn.Write k b = none) ∧
      statsd.issued statsd.freshWorld
          ((skillsMetricsRepositoryImpl.mk (skillsBeside statsd.World sampleSkills)
            (sinkBeside Unit statsd.healthyClient.toClient)).ListSkills ()
              (statsd.freshWorld, ())).2.1 =
        fourLines statsd.healthyClient (str "skills") (str "ListSkills") statsd.freshWorld
          (sampleSkills.ListSkills () ()).1.2 ∧
      (fourLines statsd.healthyClient (str "skills") (str "ListSkills") statsd.freshWorld
          (sampleSkills.ListSkills () ()).1.2).map statsd.Packet.payload =
        [ str "portfolio_grpc.api.skills.ListSkills.started:1|c\n",
          str "portfolio_grpc.api.skills.ListSkills.succeeded:1|c\n",
          str "portfolio_grpc.api.skills.ListSkills.timing:1|ms|#status:success\n",
          str "portfolio_grpc.api.skills.ListSkills.timing:2|ms|#status:finished\n" ] :=
  ⟨fun _ _ => rfl,
    (decorated_call_lines statsd.healthyClient (fun _ _ => rfl) sampleSkills sampleExperiences
      sampleEducations () 1 statsd.freshWorld ()).1,
    by decide⟩

end repositories


namespace interceptors

/-! ### parseMethodName -/

theorem stringsSplit_ne_nil (s : GoString) (sep : Nat) : stringsSplit s sep ≠ [] := by
  cases s with
  | nil => simp [stringsSplit]
  | cons c cs =>
    unfold stringsSplit
    split
    · simp
    · split <;> simp

theorem stringsSplit_of_not_mem (s : GoString) (sep : Nat) (h : sep ∉ s) :
    stringsSplit s sep = [s] := by
  induction s with
  | nil => simp [stringsSplit]
  | cons c cs ih =>
    have hc : ¬ c = sep := fun e => h (by simp [e])
    have hcs : sep ∉ cs := fun m => h (List.mem_cons_of_mem c m)
    unfold stringsSplit
    rw [if_neg hc, ih hcs]

theorem stringsSplit_append (a b : GoString) (sep : Nat) (h : sep ∉ a) :
    stringsSplit (a ++ sep :: b) sep = a :: stringsSplit b sep := by
  induction a with
  | nil => simp [stringsSplit]
  | cons c cs ih =>
    have hc : ¬ c = sep := fun e => h (by simp [e])
    have hcs : sep ∉ cs := fun m => h (List.mem_cons_of_mem c m)
    rw [List.cons_append, stringsSplit, if_neg hc, ih hcs]

theorem stringsSplit_cons_sep (cs : GoString) (sep : Nat) :
    stringsSplit (sep :: cs) sep = [] :: stringsSplit cs sep := by
  rw [stringsSplit, if_pos rfl]

theorem stringsSplit_cons_ne (c : Nat) (cs : GoString) (sep : Nat) (h : ¬ c = sep) :
    ∃ p ps, stringsSplit cs sep = p :: ps ∧ stringsSplit (c :: cs) sep = (c :: p) :: ps := by
  cases hs : stringsSplit cs sep with
  | nil => exact absurd hs (stringsSplit_ne_nil cs sep)
  | cons p ps =>
    refine ⟨p, ps, rfl, ?_⟩
    rw [stringsSplit, if_neg h, hs]

theorem stringsSplit_length_of_mem (s : GoString) (sep : Nat) (h : sep ∈ s) :
    2 ≤ (stringsSplit s sep).length := by
  induction s with
  | nil => simp at h
  | cons c cs ih =>
    by_cases hc : c = sep
    · subst hc
      have := List.length_pos.mpr (stringsSplit_ne_nil cs c)
      rw [stringsSplit_cons_sep, List.length_cons]
      omega
    · obtain ⟨p, ps, hps, hcons⟩ := stringsSplit_cons_ne c cs sep hc
      have hm : sep ∈ cs := by
        rcases List.mem_cons.mp h with e | m
        · exact absurd e.symm hc
        · exact m
      have := ih hm
      rw [hps] at this
      rw [hcons]
      simpa using this

/-- The last piece of a split is the part after the last separator. -/
theorem stringsSplit_last (s : GoString) (sep : Nat) :
    (stringsSplit s sep).getD ((stringsSplit s sep).length - 1) [] = afterLast sep s := by
  induction s with
  | nil => simp [stringsSplit, afterLast]
  | cons c cs ih =>
    by_cases hm : sep ∈ cs
    · have hlen := stringsSplit_length_of_mem cs sep hm
      rw [afterLast, if_pos hm, ← ih]
      by_cases hc : c = sep
      · subst hc
        rw [stringsSplit_cons_sep, List.length_cons, Nat.add_sub_cancel]
        have : (stringsSplit cs c).length = ((stringsSplit cs c).length - 1) + 1 := by omega
        conv_lhs => rw [this, List.getD_cons_succ]
      · obtain ⟨p, ps, hps, hcons⟩ := stringsSplit_cons_ne c cs sep hc
        rw [hcons, hps]
        rw [hps] at hlen
        simp only [List.length_cons] at hlen ⊢
        have : ps.length = (ps.length - 1) + 1 := by omega
        simp only [Nat.add_sub_cancel]
        rw [this, List.getD_cons_succ, List.getD_cons_succ]
    · rw [afterLast, if_neg hm]
      by_cases hc : c = sep
      · subst hc
        rw [stringsSplit_cons_sep, stringsSplit_of_not_mem cs c hm]
        simp
      · obtain ⟨p, ps, hps, hcons⟩ := stringsSplit_cons_ne c cs sep hc
        rw [stringsSplit_of_not_mem cs sep hm] at hps
        rw [hcons]
        injection hps with h1 h2
        subst h1 h2
        simp [hc]

theorem afterLast_append (a b : GoString) (sep : Nat) (h : sep ∉ b) :
    afterLast sep (a ++ sep :: b) = b := by
  induction a with
  | nil => simp [afterLast, h]
  | cons c cs ih =>
    rw [List.cons_append, afterLast, if_pos (by simp), ih]

theorem parseMethodName_two (fullMethod a b : GoString)
    (h : stringsSplit (stringsTrimPrefix fullMethod (str "/")) 47 = [a, b]) :
    parseMethodName fullMethod = (afterLast 46 a, b) := by
  have hpos : 0 < (stringsSplit a 46).length :=
    List.length_pos.mpr (stringsSplit_ne_nil a 46)
  unfold parseMethodName
  simp only [h, List.length_cons, List.length_nil, ne_eq, not_true_eq_false, if_false,
    List.getD_cons_zero, List.getD_cons_succ, gt_iff_lt, hpos, if_true, stringsSplit_last]

/-- C17 (as stated, refuted): an input of the stated form whose package part
holds a `/` yields ("unknown", "unknown"), not the service and the method; and
an input that splits into exactly two parts can yield ("unknown", "unknown")
too. -/
theorem parseMethodName_counterexamples :
    parseMethodName (str "/" ++ str "a/b" ++ str "." ++ str "S" ++ str "/" ++ str "M") =
        (str "unknown", str "unknown") ∧
      (47 ∉ str "S" ∧ 46 ∉ str "S" ∧ 47 ∉ str "M" ∧ 46 ∉ str "M") ∧
      parseMethodName (str "/pkg.unknown/unknown") = (str "unknown", str "unknown") ∧
      (stringsSplit (stringsTrimPrefix (str "/pkg.unknown/unknown") (str "/")) 47).length = 2 := by
  decide

/-- C17 (amended): `parseMethodName` removes at most one leading `/` and splits
the rest on `/`. When the split does not yield exactly two parts the result is
("unknown", "unknown"); when it yields exactly two, the method name is the second
part and the service name is the part of the first after its last `.` (all of it
when it has none). So every input `/pkg.Service/Method` with `pkg` free of `/`
and `Service`, `Method` free of `/` and `.` yields (Service, Method). The split
on `.` never comes back empty, so the fallback to the service "unknown" is never
taken, and the service name may be empty. -/
theorem parseMethodName_spec (fullMethod : GoString) :
    (stringsTrimPrefix fullMethod (str "/") =
        (match fullMethod with
          | 47 :: rest => rest
          | other => other)) ∧
      ((stringsSplit (stringsTrimPrefix fullMethod (str "/")) 47).length ≠ 2 →
        parseMethodName fullMethod = (str "unknown", str "unknown")) ∧
      (∀ a b : GoString, stringsSplit (stringsTrimPrefix fullMethod (str "/")) 47 = [a, b] →
        parseMethodName fullMethod = (afterLast 46 a, b)) ∧
      (∀ pkg service method : GoString,
        47 ∉ pkg → 47 ∉ service → 46 ∉ service → 47 ∉ method → 46 ∉ method →
        parseMethodName (str "/" ++ pkg ++ str "." ++ service ++ str "/" ++ method) =
          (service, method)) ∧
      parseMethodName (str "/jorgejr568.portfolio_grpc.PortfolioService/GetAllSkills") =
        (str "PortfolioService", str "GetAllSkills") ∧
      (∀ s : GoString, 0 < (stringsSplit s 46).length) ∧
      parseMethodName (str "/pkg./Method") = ([], str "Method") := by
  have hslash : str "/" = [47] := by decide
  have hdot : str "." = [46] := by decide
  refine ⟨?_, ?_, ?_, ?_, by decide, ?_, by decide⟩
  · rw [hslash]
    unfold stringsTrimPrefix
    match fullMethod with
    | [] => simp
    | c :: cs =>
      by_cases hc : c = 47
      · subst hc; simp
      · have hc2 : ¬ 47 = c := fun e => hc e.symm
        simp only [List.isPrefixOf, List.length_cons, List.length_nil]
        simp [hc, hc2]
  · intro h
    unfold parseMethodName
    simp only [ne_eq, h, not_false_eq_true, if_true]
  · intro a b h
    exact parseMethodName_two fullMethod a b h
  · intro pkg service method h1 h2 h3 h4 _
    have hfirst : 47 ∉ pkg ++ 46 :: service := by
      intro hm
      rcases List.mem_append.mp hm with m | m
      · exact h1 m
      · rcases List.mem_cons.mp m with e | m2
        · omega
        · exact h2 m2
    have htrim : stringsTrimPrefix (str "/" ++ pkg ++ str "." ++ service ++ str "/" ++ method)
        (str "/") = (pkg ++ 46 :: service) ++ 47 :: method := by
      rw [hslash, hdot]
      simp [stringsTrimPrefix, List.isPrefixOf]
    have hsplit : stringsSplit (stringsTrimPrefix
        (str "/" ++ pkg ++ str "." ++ service ++ str "/" ++ method) (str "/")) 47 =
        [pkg ++ 46 :: service, method] := by
      rw [htrim, stringsSplit_append _ _ _ hfirst, stringsSplit_of_not_mem _ _ h4]
    rw [parseMethodName_two _ _ _ hsplit, afterLast_append _ _ _ h3]
  · intro s
    exact List.length_pos.mpr (stringsSplit_ne_nil s 46)

/-- C17 (amended) at the method name of the service of this repository. -/
theorem parseMethodName_spec_witness :
    47 ∉ str "jorgejr568.portfolio_grpc" ∧
      parseMethodName (str "/" ++ str "jorgejr568.portfolio_grpc" ++ str "." ++
          str "PortfolioService" ++ str "/" ++ str "GetSkill") =
        (str "PortfolioService", str "GetSkill") :=
  ⟨by decide,
    (parseMethodName_spec []).2.2.2.1 (str "jorgejr568.portfolio_grpc") (str "PortfolioService")
      (str "GetSkill") (by decide) (by decide) (by decide) (by decide) (by decide)⟩

end interceptors


namespace server

open repositories

variable {W Ctx Skill Experience Education : Type}

/-! ### The handlers -/

/-- C12: each of the handlers `GetSkill`, `GetExperience`, `GetEducation`, for
every repository: when the repository returns an error that is, or wraps, the
not-found error of the entity, the handler returns no response and a status with
code `NotFound`; for any other error no response and a status with code
`Internal`; the detail is the message of the error in both cases; when the
repository succeeds the handler returns no error and a response with exactly
the record of the repository. -/
theorem get_handler_status (s : serverImpl W Ctx Skill Experience Education) (ctx : Ctx)
    (request : GetRequest) (w : W) :
    ((∀ e : GoError, (s.skillsRepository.GetSkill ctx request.Id w).1.2 = some e →
        s.GetSkill ctx request w =
          ((none, some { code := if errorsIs e ErrSkillNotFound then .NotFound else .Internal,
                         message := e.Error }),
            (s.skillsRepository.GetSkill ctx request.Id w).2)) ∧
      ((s.skillsRepository.GetSkill ctx request.Id w).1.2 = none →
        s.GetSkill ctx request w =
          ((some { record := (s.skillsRepository.GetSkill ctx request.Id w).1.1 }, none),
            (s.skillsRepository.GetSkill ctx request.Id w).2))) ∧
    ((∀ e : GoError, (s.experiencesRepository.GetExperience ctx request.Id w).1.2 = some e →
        s.GetExperience ctx request w =
          ((none, some { code := if errorsIs e ErrExperienceNotFound then .NotFound
                                 else .Internal,
                         message := e.Error }),
            (s.experiencesRepository.GetExperience ctx request.Id w).2)) ∧
      ((s.experiencesRepository.GetExperience ctx request.Id w).1.2 = none →
        s.GetExperience ctx request w =
          ((some { record := (s.experiencesRepository.GetExperience ctx request.Id w).1.1 },
              none),
            (s.experiencesRepository.GetExperience ctx request.Id w).2))) ∧
    ((∀ e : GoError, (s.educationsRepository.GetEducation ctx request.Id w).1.2 = some e →
        s.GetEducation ctx request w =
          ((none, some { code := if errorsIs e ErrEducationNotFound then .NotFound
                                 else .Internal,
                         message := e.Error }),
            (s.educationsRepository.GetEducation ctx request.Id w).2)) ∧
      ((s.educationsRepository.GetEducation ctx request.Id w).1.2 = none →
        s.GetEducation ctx request w =
          ((some { record := (s.educationsRepository.GetEducation ctx request.Id w).1.1 },
              none),
            (s.educationsRepository.GetEducation ctx request.Id w).2))) := by
  refine ⟨⟨?_, ?_⟩, ⟨?_, ?_⟩, ⟨?_, ?_⟩⟩
  · intro e he
    simp only [serverImpl.GetSkill, he, statusError]
    split <;> simp
  · intro he
    simp only [serverImpl.GetSkill, he]
  · intro e he
    simp only [serverImpl.GetExperience, he, statusError]
    split <;> simp
  · intro he
    simp only [serverImpl.GetExperience, he]
  · intro e he
    simp only [serverImpl.GetEducation, he, statusError]
    split <;> simp
  · intro he
    simp only [serverImpl.GetEducation, he]

/-- C12 at `get(9999)` for a skill that is not in the store: the status is
`NotFound` with the message of the error. -/
theorem get_handler_status_witness :
    emptyStoreServer.GetSkill () { Id := 9999 } () =
      ((none, some { code := .NotFound, message := str "skill not found" }), ()) :=
  (get_handler_status emptyStoreServer () { Id := 9999 } ()).1.1 ErrSkillNotFound rfl

/-- C18: each of the handlers `GetAllSkills`, `GetAllExperiences`,
`GetAllEducations`, for every repository: every error of the repository, the
not-found error of the entity included, yields no response and a status with
code `Internal` whose detail is the message of the error, so the status is never
`NotFound`; on success the handler returns no error and a response with exactly
the list of the repository, in its order. -/
theorem list_handler_status (s : serverImpl W Ctx Skill Experience Education) (ctx : Ctx)
    (w : W) :
    ((∀ e : GoError, (s.skillsRepository.ListSkills ctx w).1.2 = some e →
        s.GetAllSkills ctx w =
          ((none, some { code := .Internal, message := e.Error }),
            (s.skillsRepository.ListSkills ctx w).2)) ∧
      ((s.skillsRepository.ListSkills ctx w).1.2 = none →
        s.GetAllSkills ctx w =
          ((some { records := (s.skillsRepository.ListSkills ctx w).1.1 }, none),
            (s.skillsRepository.ListSkills ctx w).2)) ∧
      (∀ st : Status, (s.GetAllSkills ctx w).1.2 = some st → st.code ≠ .NotFound)) ∧
    ((∀ e : GoError, (s.experiencesRepository.ListExperiences ctx w).1.2 = some e →
        s.GetAllExperiences ctx w =
          ((none, some { code := .Internal, message := e.Error }),
            (s.experiencesRepository.ListExperiences ctx w).2)) ∧
      ((s.experiencesRepository.ListExperiences ctx w).1.2 = none →
        s.GetAllExperiences ctx w =
          ((some { records := (s.experiencesRepository.ListExperiences ctx w).1.1 }, none),
            (s.experiencesRepository.ListExperiences ctx w).2)) ∧
      (∀ st : Status, (s.GetAllExperiences ctx w).1.2 = some st → st.code ≠ .NotFound)) ∧
    ((∀ e : GoError, (s.educationsRepository.ListEducations ctx w).1.2 = some e →
        s.GetAllEducations ctx w =
          ((none, some { code := .Internal, message := e.Error }),
            (s.educationsRepository.ListEducations ctx w).2)) ∧
      ((s.educationsRepository.ListEducations ctx w).1.2 = none →
        s.GetAllEducations ctx w =
          ((some { records := (s.educationsRepository.ListEducations ctx w).1.1 }, none),
            (s.educationsRepository.ListEducations ctx w).2)) ∧
      (∀ st : Status, (s.GetAllEducations ctx w).1.2 = some st → st.code ≠ .NotFound)) := by
  refine ⟨⟨?_, ?_, ?_⟩, ⟨?_, ?_, ?_⟩, ⟨?_, ?_, ?_⟩⟩
  · intro e he
    simp only [serverImpl.GetAllSkills, he, statusError]
    simp
  · intro he
    simp only [serverImpl.GetAllSkills, he]
  · intro st hst
    cases he : (s.skillsRepository.ListSkills ctx w).1.2 with
    | none => simp [serverImpl.GetAllSkills, he] at hst
    | some e =>
      simp only [serverImpl.GetAllSkills, he, statusError] at hst
      simp at hst
      rw [← hst]; simp
  · intro e he
    simp only [serverImpl.GetAllExperiences, he, statusError]
    simp
  · intro he
    simp only [serverImpl.GetAllExperiences, he]
  · intro st hst
    cases he : (s.experiencesRepository.ListExperiences ctx w).1.2 with
    | none => simp [serverImpl.GetAllExperiences, he] at hst
    | some e =>
      simp only [serverImpl.GetAllExperiences, he, statusError] at hst
      simp at hst
      rw [← hst]; simp
  · intro e he
    simp only [serverImpl.GetAllEducations, he, statusError]
    simp
  · intro he
    simp only [serverImpl.GetAllEducations, he]
  · intro st hst
    cases he : (s.educationsRepository.ListEducations ctx w).1.2 with
    | none => simp [serverImpl.GetAllEducations, he] at hst
    | some e =>
      simp only [serverImpl.GetAllEducations, he, statusError] at hst
      simp at hst
      rw [← hst]; simp

/-- C18 at a list whose repository fails with the not-found error of the
entity: the status is `Internal`. -/
theorem list_handler_status_witness :
    emptyStoreServer.GetAllSkills () () =
      ((none, some { code := .Internal, message := str "skill not found" }), ()) :=
  (list_handler_status emptyStoreServer () ()).1.1 ErrSkillNotFound rfl

end server


namespace utils

/-! ### Optional times -/

theorem toInt32_of_fits (v : Int) (hlo : -(2 ^ 31) ≤ v) (hhi : v < 2 ^ 31) : toInt32 v = v := by
  unfold toInt32
  omega

end utils

namespace repositories

open utils

/-- C15 (as stated, refuted): for the first day of the year 2147483648, a time
Go can hold, `TimeToProtoDate` does not carry the year: its year is
-2147483648. -/
theorem TimeToProtoDate_far_future :
    farFuture.valid ∧ farFuture.Year = 2147483648 ∧
      TimeToProtoDate (some farFuture) = some { Year := -2147483648, Month := 1, Day := 1 } := by
  decide

/-- C15 (amended): `TimeToProtoDate(t)` and `TimeToProtoTimestamp(t)` are absent
exactly when `t` is absent; for a present `t` whose year fits in 32 bits,
`TimeToProtoDate(t)` carries exactly the year, the month and the day of `t`; and
in the row mapping of each entity every date and every timestamp of the record
is absent exactly when its own column is null. -/
theorem optional_times (t : Option Time) (s : pgSkill) (e : pgExperience) (d : pgEducation)
    (jsonUnmarshal : GoString → List GoString × Option GoError) :
    (TimeToProtoDate t = none ↔ t = none) ∧
    (TimeToProtoTimestamp t = none ↔ t = none) ∧
    (∀ t0 : Time, t0.valid → -(2 ^ 31) ≤ t0.Year → t0.Year < 2 ^ 31 →
      TimeToProtoDate (some t0) = some { Year := t0.Year, Month := t0.Month, Day := t0.Day }) ∧
    ((s.toProto.CreatedAt = none ↔ s.CreatedAt = none) ∧
      (s.toProto.UpdatedAt = none ↔ s.UpdatedAt = none)) ∧
    (((e.toProto jsonUnmarshal).StartedAt = none ↔ e.StartedAt = none) ∧
      ((e.toProto jsonUnmarshal).EndedAt = none ↔ e.EndedAt = none) ∧
      ((e.toProto jsonUnmarshal).CreatedAt = none ↔ e.CreatedAt = none) ∧
      ((e.toProto jsonUnmarshal).UpdatedAt = none ↔ e.UpdatedAt = none)) ∧
    ((d.toProto.StartedAt = none ↔ d.StartedAt = none) ∧
      (d.toProto.EndedAt = none ↔ d.EndedAt = none) ∧
      (d.toProto.CreatedAt = none ↔ d.CreatedAt = none) ∧
      (d.toProto.UpdatedAt = none ↔ d.UpdatedAt = none)) := by
  have hd : ∀ x : Option Time, TimeToProtoDate x = none ↔ x = none := by
    intro x; cases x <;> simp [TimeToProtoDate]
  have hs : ∀ x : Option Time, TimeToProtoTimestamp x = none ↔ x = none := by
    intro x; cases x <;> simp [TimeToProtoTimestamp]
  refine ⟨hd t, hs t, ?_, ⟨hs _, hs _⟩, ⟨?_, ?_, ?_, ?_⟩, ⟨?_, ?_, ?_, ?_⟩⟩
  · intro t0 hv hlo hhi
    obtain ⟨h1, h2, h3, h4, _, _⟩ := hv
    simp only [TimeToProtoDate]
    rw [toInt32_of_fits _ hlo hhi, toInt32_of_fits t0.Month (by omega) (by omega),
      toInt32_of_fits t0.Day (by omega) (by omega)]
  · simpa [pgExperience.toProto] using hd e.StartedAt
  · simpa [pgExperience.toProto] using hd e.EndedAt
  · simpa [pgExperience.toProto] using hs e.CreatedAt
  · simpa [pgExperience.toProto] using hs e.UpdatedAt
  · cases h1 : d.StartedAt <;> cases h2 : d.EndedAt <;>
      simp [pgEducation.toProto, h1, h2, TimeToProtoDate]
  · cases h1 : d.StartedAt <;> cases h2 : d.EndedAt <;>
      simp [pgEducation.toProto, h1, h2, TimeToProtoDate]
  · cases h1 : d.StartedAt <;> cases h2 : d.EndedAt <;>
      simpa [pgEducation.toProto, h1, h2] using hs d.CreatedAt
  · cases h1 : d.StartedAt <;> cases h2 : d.EndedAt <;>
      simpa [pgEducation.toProto, h1, h2] using hs d.UpdatedAt

/-- C15 (amended) at 29 February 2024. -/
theorem optional_times_witness :
    TimeToProtoDate (some
        { Year := 2024, Month := 2, Day := 29, Unix := 1709164800, Nanosecond := 0 }) =
      some { Year := 2024, Month := 2, Day := 29 } :=
  (optional_times none pgSkill.zero pgExperience.zero pgEducation.zero
      (fun _ => ([], none))).2.2.1
    { Year := 2024, Month := 2, Day := 29, Unix := 1709164800, Nanosecond := 0 }
    (by decide) (by decide) (by decide)

end repositories


namespace repositories

open utils

/-! ### The database repositories -/

theorem errorsIs_self (e : GoError) : errorsIs e e = true := by
  cases e <;> simp [errorsIs]

theorem errorsIs_wrapf (pre : GoString) (e target : GoError) (h : errorsIs e target = true) :
    errorsIs (.wrapf pre e) target = true := by
  simp [errorsIs, h]

theorem scanLoop_ok {R P : Type} (decode : rowScanner R → Except GoError P) (f : rowScanner R → P)
    (rows : List (rowScanner R)) (acc : List P) (h : ∀ row ∈ rows, decode row = .ok (f row)) :
    scanLoop decode rows acc = .ok (acc ++ rows.map f) := by
  induction rows generalizing acc with
  | nil => simp [scanLoop]
  | cons row rest ih =>
    rw [scanLoop, h row (List.mem_cons_self row rest)]
    simp only []
    rw [ih (acc ++ [f row]) (fun r hr => h r (List.mem_cons_of_mem row hr))]
    simp

theorem jsonUnmarshalCompact_samples :
    jsonUnmarshalCompact (str "[\"go\",\"sql\"]") = ([str "go", str "sql"], none) ∧
      jsonUnmarshalCompact (str "[]") = ([], none) ∧
      jsonUnmarshalCompact (str "[\"go\",1]") = ([str "go", []], some jsonTypeError) ∧
      jsonUnmarshalCompact (str "[\"go\"") = ([], some jsonSyntaxError) := by
  decide

theorem decodeSkill_cases (row : rowScanner pgSkill) :
    (∀ e : GoError, (row.Scan pgSkill.zero).2 = some e → errorsIs e sqlErrNoRows = true →
        decodeSkill row = .error ErrSkillNotFound) ∧
      ((row.Scan pgSkill.zero).2 = none →
        decodeSkill row = .ok (row.Scan pgSkill.zero).1.toProto) ∧
      (∀ e : GoError, (row.Scan pgSkill.zero).2 = some e → errorsIs e sqlErrNoRows = false →
        decodeSkill row = .error (.wrapf (str "failed to scan skill: ") e)) := by
  unfold decodeSkill
  rcases hrow : row.Scan pgSkill.zero with ⟨p, err⟩
  refine ⟨?_, ?_, ?_⟩
  · intro e he hno
    simp only at he
    subst he
    simp [hno]
  · intro he
    simp only at he
    subst he
    rfl
  · intro e he hno
    simp only at he
    subst he
    simp [hno]

theorem decodeExperience_cases (jsonUnmarshal : GoString → List GoString × Option GoError)
    (row : rowScanner pgExperience) :
    (∀ e : GoError, (row.Scan pgExperience.zero).2 = some e → errorsIs e sqlErrNoRows = true →
        decodeExperience jsonUnmarshal row = .error ErrExperienceNotFound) ∧
      ((row.Scan pgExperience.zero).2 = none →
        decodeExperience jsonUnmarshal row =
          .ok ((row.Scan pgExperience.zero).1.toProto jsonUnmarshal)) ∧
      (∀ e : GoError, (row.Scan pgExperience.zero).2 = some e → errorsIs e sqlErrNoRows = false →
        decodeExperience jsonUnmarshal row =
          .error (.wrapf (str "failed to scan experience: ") e)) := by
  unfold decodeExperience
  rcases hrow : row.Scan pgExperience.zero with ⟨p, err⟩
  refine ⟨?_, ?_, ?_⟩
  · intro e he hno
    simp only at he
    subst he
    simp [hno]
  · intro he
    simp only at he
    subst he
    rfl
  · intro e he hno
    simp only at he
    subst he
    simp [hno]

theorem decodeEducation_cases (row : rowScanner pgEducation) :
    (∀ e : GoError, (row.Scan pgEducation.zero).2 = some e → errorsIs e sqlErrNoRows = true →
        decodeEducation row = .error ErrEducationNotFound) ∧
      ((row.Scan pgEducation.zero).2 = none →
        decodeEducation row = .ok (row.Scan pgEducation.zero).1.toProto) ∧
      (∀ e : GoError, (row.Scan pgEducation.zero).2 = some e → errorsIs e sqlErrNoRows = false →
        decodeEducation row = .error (.wrapf (str "failed to scan education: ") e)) := by
  unfold decodeEducation
  rcases hrow : row.Scan pgEducation.zero with ⟨p, err⟩
  refine ⟨?_, ?_, ?_⟩
  · intro e he hno
    simp only at he
    subst he
    simp [hno]
  · intro he
    simp only at he
    subst he
    rfl
  · intro e he hno
    simp only at he
    subst he
    simp [hno]

/-- C13: the get of each database repository. When the scan of the row reports
that no row matched (its error is, or wraps, `sql.ErrNoRows`) the result is
exactly the not-found error of the entity; when the scan succeeds the result is
the record mapped from the scanned row, with no error; when the scan fails for
another reason the result is the scan error wrapped behind the text
"failed to scan <entity>: ". -/
theorem get_by_id {W Ctx : Type} (sk : skillsRepositoryImpl W Ctx)
    (ex : experiencesRepositoryImpl W Ctx) (ed : educationsRepositoryImpl W Ctx)
    (jsonUnmarshal : GoString → List GoString × Option GoError)
    (ctx : Ctx) (id : Int) (w : W) :
    ((∀ e : GoError,
        ((sk.db.QueryRowContext ctx (getSkillQuery sk.tableName) [id] w).1.Scan pgSkill.zero).2 =
          some e →
        (if errorsIs e sqlErrNoRows then
          sk.GetSkill ctx id w =
            ((none, some ErrSkillNotFound),
              (sk.db.QueryRowContext ctx (getSkillQuery sk.tableName) [id] w).2)
        else
          sk.GetSkill ctx id w =
            ((none, some (.wrapf (str "failed to scan skill: ") e)),
              (sk.db.QueryRowContext ctx (getSkillQuery sk.tableName) [id] w).2))) ∧
      (((sk.db.QueryRowContext ctx (getSkillQuery sk.tableName) [id] w).1.Scan pgSkill.zero).2 =
          none →
        sk.GetSkill ctx id w =
          ((some ((sk.db.QueryRowContext ctx (getSkillQuery sk.tableName) [id] w).1.Scan
                pgSkill.zero).1.toProto, none),
            (sk.db.QueryRowContext ctx (getSkillQuery sk.tableName) [id] w).2))) ∧
    ((∀ e : GoError,
        ((ex.db.QueryRowContext ctx (getExperienceQuery ex.selectColumns ex.tableName) [id]
            w).1.Scan pgExperience.zero).2 = some e →
        (if errorsIs e sqlErrNoRows then
          ex.GetExperience jsonUnmarshal ctx id w =
            ((none, some ErrExperienceNotFound),
              (ex.db.QueryRowContext ctx (getExperienceQuery ex.selectColumns ex.tableName) [id]
                w).2)
        else
          ex.GetExperience jsonUnmarshal ctx id w =
            ((none, some (.wrapf (str "failed to scan experience: ") e)),
              (ex.db.QueryRowContext ctx (getExperienceQuery ex.selectColumns ex.tableName) [id]
                w).2))) ∧
      (((ex.db.QueryRowContext ctx (getExperienceQuery ex.selectColumns ex.tableName) [id]
            w).1.Scan pgExperience.zero).2 = none →
        ex.GetExperience jsonUnmarshal ctx id w =
          ((some (((ex.db.QueryRowContext ctx (getExperienceQuery ex.selectColumns ex.tableName)
                [id] w).1.Scan pgExperience.zero).1.toProto jsonUnmarshal), none),
            (ex.db.QueryRowContext ctx (getExperienceQuery ex.selectColumns ex.tableName) [id]
              w).2))) ∧
    ((∀ e : GoError,
        ((ed.db.QueryRowContext ctx (getEducationQuery ed.selectColumns ed.tableName) [id]
            w).1.Scan pgEducation.zero).2 = some e →
        (if errorsIs e sqlErrNoRows then
          ed.GetEducation ctx id w =
            ((none, some ErrEducationNotFound),
              (ed.db.QueryRowContext ctx (getEducationQuery ed.selectColumns ed.tableName) [id]
                w).2)
        else
          ed.GetEducation ctx id w =
            ((none, some (.wrapf (str "failed to scan education: ") e)),
              (ed.db.QueryRowContext ctx (getEducationQuery ed.selectColumns ed.tableName) [id]
                w).2))) ∧
      (((ed.db.QueryRowContext ctx (getEducationQuery ed.selectColumns ed.tableName) [id]
            w).1.Scan pgEducation.zero).2 = none →
        ed.GetEducation ctx id w =
          ((some ((ed.db.QueryRowContext ctx (getEducationQuery ed.selectColumns ed.tableName)
                [id] w).1.Scan pgEducation.zero).1.toProto, none),
            (ed.db.QueryRowContext ctx (getEducationQuery ed.selectColumns ed.tableName) [id]
              w).2))) ∧
    -- what wrapping an error means
    (∀ (pre : GoString) (e : GoError),
      (GoError.wrapf pre e).Error = pre ++ e.Error ∧ errorsIs (.wrapf pre e) e = true) := by
  refine ⟨⟨?_, ?_⟩, ⟨?_, ?_⟩, ⟨?_, ?_⟩, ?_⟩
  · intro e he
    obtain ⟨h1, _, h3⟩ := decodeSkill_cases
      (sk.db.QueryRowContext ctx (getSkillQuery sk.tableName) [id] w).1
    unfold skillsRepositoryImpl.GetSkill
    cases hno : errorsIs e sqlErrNoRows
    · simp [h3 e he hno]
    · simp [h1 e he hno]
  · intro he
    obtain ⟨_, h2, _⟩ := decodeSkill_cases
      (sk.db.QueryRowContext ctx (getSkillQuery sk.tableName) [id] w).1
    unfold skillsRepositoryImpl.GetSkill
    simp [h2 he]
  · intro e he
    obtain ⟨h1, _, h3⟩ := decodeExperience_cases jsonUnmarshal
      (ex.db.QueryRowContext ctx (getExperienceQuery ex.selectColumns ex.tableName) [id] w).1
    unfold experiencesRepositoryImpl.GetExperience
    cases hno : errorsIs e sqlErrNoRows
    · simp [h3 e he hno]
    · simp [h1 e he hno]
  · intro he
    obtain ⟨_, h2, _⟩ := decodeExperience_cases jsonUnmarshal
      (ex.db.QueryRowContext ctx (getExperienceQuery ex.selectColumns ex.tableName) [id] w).1
    unfold experiencesRepositoryImpl.GetExperience
    simp [h2 he]
  · intro e he
    obtain ⟨h1, _, h3⟩ := decodeEducation_cases
      (ed.db.QueryRowContext ctx (getEducationQuery ed.selectColumns ed.tableName) [id] w).1
    unfold educationsRepositoryImpl.GetEducation
    cases hno : errorsIs e sqlErrNoRows
    · simp [h3 e he hno]
    · simp [h1 e he hno]
  · intro he
    obtain ⟨_, h2, _⟩ := decodeEducation_cases
      (ed.db.QueryRowContext ctx (getEducationQuery ed.selectColumns ed.tableName) [id] w).1
    unfold educationsRepositoryImpl.GetEducation
    simp [h2 he]
  · intro pre e
    exact ⟨rfl, errorsIs_wrapf pre e e (errorsIs_self e)⟩

/-- C13 at `get(9999)` on a skills table without rows: the result is
`ErrSkillNotFound`. -/
theorem get_by_id_witness :
    (newSkillsDBRepository emptySkillsDB).GetSkill () 9999 () =
      ((none, some ErrSkillNotFound), ()) :=
  (get_by_id (newSkillsDBRepository emptySkillsDB)
    (newExperiencesDBRepository
      { QueryContext := fun _ _ w => (.ok { rows := [], Err := none }, w)
        QueryRowContext := fun _ _ _ w => ({ Scan := fun r => (r, none) }, w) })
    (newEducationsDBRepository
      { QueryContext := fun _ _ w => (.ok { rows := [], Err := none }, w)
        QueryRowContext := fun _ _ _ w => ({ Scan := fun r => (r, none) }, w) })
    (fun _ => ([], none)) () 9999 ()).1.1 sqlErrNoRows rfl

/-- C14 (as stated, refuted): the statement of `ListSkills` carries the limit of
1000 rows but no order at all. -/
theorem listSkills_statement_is_unordered :
    listSkillsQuery (newSkillsDBRepository emptySkillsDB).tableName =
        str "SELECT id, title, level, created_at, updated_at FROM skills LIMIT 1000" ∧
      hasInfix (str "LIMIT 1000")
        (listSkillsQuery (newSkillsDBRepository emptySkillsDB).tableName) = true ∧
      hasInfix (str "ORDER BY")
        (listSkillsQuery (newSkillsDBRepository emptySkillsDB).tableName) = false ∧
      hasInfix (str "started_at")
        (listSkillsQuery (newSkillsDBRepository emptySkillsDB).tableName) = false := by
  decide

set_option maxRecDepth 20000 in
theorem list_statements :
    listSkillsQuery skillsTableName =
        str "SELECT id, title, level, created_at, updated_at FROM skills LIMIT 1000" ∧
      listOrderedQuery experiencesSelectColumns experiencesTableName =
        str ("\n\t\tSELECT id,title,description,company_name,company_url,company_logo_url," ++
          "languages,frameworks,started_at,finished_at as ended_at,created_at,updated_at" ++
          "\n\t\tFROM experiences e\n\t\tORDER BY e.started_at DESC\n\t\tLIMIT 1000") ∧
      listOrderedQuery educationsSelectColumns educationsTableName =
        str ("\n\t\tSELECT id,title,institution_name,institution_url,started_at," ++
          "finished_at as ended_at,created_at,updated_at" ++
          "\n\t\tFROM education e\n\t\tORDER BY e.started_at DESC\n\t\tLIMIT 1000") := by
  decide

theorem scanLoop_inv {R P : Type} (decode : rowScanner R → Except GoError P)
    (f : rowScanner R → P) (hdec : ∀ row p, decode row = .ok p → p = f row)
    (rows : List (rowScanner R)) (acc l : List P) (h : scanLoop decode rows acc = .ok l) :
    l = acc ++ rows.map f := by
  induction rows generalizing acc with
  | nil =>
    simp only [scanLoop, Except.ok.injEq] at h
    simp [h]
  | cons row rest ih =>
    rw [scanLoop] at h
    cases hd : decode row with
    | error e => simp [hd] at h
    | ok p =>
      simp only [hd] at h
      rw [ih (acc ++ [p]) h, hdec row p hd]
      simp

theorem decodeSkill_ok (row : rowScanner pgSkill) (p : portfolio_grpc.Skill)
    (h : decodeSkill row = .ok p) : p = (row.Scan pgSkill.zero).1.toProto := by
  obtain ⟨h1, h2, h3⟩ := decodeSkill_cases row
  cases he : (row.Scan pgSkill.zero).2 with
  | none =>
    rw [h2 he] at h
    exact (Except.ok.inj h).symm
  | some e =>
    cases hno : errorsIs e sqlErrNoRows
    · rw [h3 e he hno] at h; cases h
    · rw [h1 e he hno] at h; cases h

theorem decodeExperience_ok (jsonUnmarshal : GoString → List GoString × Option GoError)
    (row : rowScanner pgExperience) (p : portfolio_grpc.Experience)
    (h : decodeExperience jsonUnmarshal row = .ok p) :
    p = (row.Scan pgExperience.zero).1.toProto jsonUnmarshal := by
  obtain ⟨h1, h2, h3⟩ := decodeExperience_cases jsonUnmarshal row
  cases he : (row.Scan pgExperience.zero).2 with
  | none =>
    rw [h2 he] at h
    exact (Except.ok.inj h).symm
  | some e =>
    cases hno : errorsIs e sqlErrNoRows
    · rw [h3 e he hno] at h; cases h
    · rw [h1 e he hno] at h; cases h

theorem decodeEducation_ok (row : rowScanner pgEducation) (p : portfolio_grpc.Education)
    (h : decodeEducation row = .ok p) : p = (row.Scan pgEducation.zero).1.toProto := by
  obtain ⟨h1, h2, h3⟩ := decodeEducation_cases row
  cases he : (row.Scan pgEducation.zero).2 with
  | none =>
    rw [h2 he] at h
    exact (Except.ok.inj h).symm
  | some e =>
    cases hno : errorsIs e sqlErrNoRows
    · rw [h3 e he hno] at h; cases h
    · rw [h1 e he hno] at h; cases h

theorem ListSkills_records {W Ctx : Type} (db : DB W Ctx pgSkill) (ctx : Ctx) (w w2 : W)
    (rows : Rows pgSkill) (records : List portfolio_grpc.Skill)
    (hq : db.QueryContext ctx (listSkillsQuery skillsTableName) w = (.ok rows, w2))
    (h : ((newSkillsDBRepository db).ListSkills ctx w).1.1 = some records) :
    records = rows.rows.map fun row => (row.Scan pgSkill.zero).1.toProto := by
  simp only [skillsRepositoryImpl.ListSkills, newSkillsDBRepository, hq] at h
  cases hl : scanLoop decodeSkill rows.rows [] with
  | error e => simp [hl] at h
  | ok l =>
    have := scanLoop_inv decodeSkill _ decodeSkill_ok rows.rows [] l hl
    cases herr : rows.Err with
    | some e => simp [hl, herr] at h
    | none =>
      simp only [hl, herr, Option.some.injEq] at h
      rw [← h, this, List.nil_append]

theorem ListExperiences_records {W Ctx : Type} (db : DB W Ctx pgExperience)
    (jsonUnmarshal : GoString → List GoString × Option GoError) (ctx : Ctx) (w w2 : W)
    (rows : Rows pgExperience) (records : List portfolio_grpc.Experience)
    (hq : db.QueryContext ctx (listOrderedQuery experiencesSelectColumns experiencesTableName)
      w = (.ok rows, w2))
    (h : ((newExperiencesDBRepository db).ListExperiences jsonUnmarshal ctx w).1.1 =
      some records) :
    records = rows.rows.map fun row => (row.Scan pgExperience.zero).1.toProto jsonUnmarshal := by
  simp only [experiencesRepositoryImpl.ListExperiences, newExperiencesDBRepository, hq] at h
  cases hl : scanLoop (decodeExperience jsonUnmarshal) rows.rows [] with
  | error e => simp [hl] at h
  | ok l =>
    have := scanLoop_inv (decodeExperience jsonUnmarshal) _ (decodeExperience_ok jsonUnmarshal)
      rows.rows [] l hl
    cases herr : rows.Err with
    | some e => simp [hl, herr] at h
    | none =>
      simp only [hl, herr, Option.some.injEq] at h
      rw [← h, this, List.nil_append]

theorem ListEducations_records {W Ctx : Type} (db : DB W Ctx pgEducation) (ctx : Ctx) (w w2 : W)
    (rows : Rows pgEducation) (records : List portfolio_grpc.Education)
    (hq : db.QueryContext ctx (listOrderedQuery educationsSelectColumns educationsTableName)
      w = (.ok rows, w2))
    (h : ((newEducationsDBRepository db).ListEducations ctx w).1.1 = some records) :
    records = rows.rows.map fun row => (row.Scan pgEducation.zero).1.toProto := by
  simp only [educationsRepositoryImpl.ListEducations, newEducationsDBRepository, hq] at h
  cases hl : scanLoop decodeEducation rows.rows [] with
  | error e => simp [hl] at h
  | ok l =>
    have := scanLoop_inv decodeEducation _ decodeEducation_ok rows.rows [] l hl
    cases herr : rows.Err with
    | some e => simp [hl, herr] at h
    | none =>
      simp only [hl, herr, Option.some.injEq] at h
      rw [← h, this, List.nil_append]

theorem experience_startedAt (jsonUnmarshal : GoString → List GoString × Option GoError)
    (p : pgExperience) : (p.toProto jsonUnmarshal).StartedAt = TimeToProtoDate p.StartedAt := by
  simp [pgExperience.toProto]

theorem education_startedAt (p : pgEducation) :
    p.toProto.StartedAt = TimeToProtoDate p.StartedAt := by
  cases h1 : p.StartedAt <;> cases h2 : p.EndedAt <;>
    simp [pgEducation.toProto, h1, h2]

/-- C14 (amended): each list issues one statement, whose text is given here in
full: for skills it carries the limit of 1000 rows and no order, for experiences
and educations the descending order on `started_at` and the limit of 1000 rows.
When the rows all scan and the row set reports no error, the list returns one
record per row received, in the order received; and whenever a list returns
records they are the records of the rows received, one per row and in their
order, so they are at most 1000 when at most 1000 rows are delivered, and the
experiences and the educations are in whatever order of start dates their rows
are delivered in: in descending order of start date when the rows come so. -/
theorem list_rows {W Ctx : Type} (skillsDB : DB W Ctx pgSkill)
    (experiencesDB : DB W Ctx pgExperience) (educationsDB : DB W Ctx pgEducation)
    (jsonUnmarshal : GoString → List GoString × Option GoError) (ctx : Ctx) (w : W) :
    -- the statements
    (listSkillsQuery (newSkillsDBRepository skillsDB).tableName =
        str "SELECT id, title, level, created_at, updated_at FROM skills LIMIT 1000" ∧
      listOrderedQuery (newExperiencesDBRepository experiencesDB).selectColumns
          (newExperiencesDBRepository experiencesDB).tableName =
        str ("\n\t\tSELECT id,title,description,company_name,company_url,company_logo_url," ++
          "languages,frameworks,started_at,finished_at as ended_at,created_at,updated_at" ++
          "\n\t\tFROM experiences e\n\t\tORDER BY e.started_at DESC\n\t\tLIMIT 1000") ∧
      listOrderedQuery (newEducationsDBRepository educationsDB).selectColumns
          (newEducationsDBRepository educationsDB).tableName =
        str ("\n\t\tSELECT id,title,institution_name,institution_url,started_at," ++
          "finished_at as ended_at,created_at,updated_at" ++
          "\n\t\tFROM education e\n\t\tORDER BY e.started_at DESC\n\t\tLIMIT 1000")) ∧
    -- skills
    (∀ (rows : Rows pgSkill) (w2 : W),
      skillsDB.QueryContext ctx
          (str "SELECT id, title, level, created_at, updated_at FROM skills LIMIT 1000") w =
        (.ok rows, w2) →
      (rows.Err = none → (∀ row ∈ rows.rows, (row.Scan pgSkill.zero).2 = none) →
        (newSkillsDBRepository skillsDB).ListSkills ctx w =
          ((some (rows.rows.map fun row => (row.Scan pgSkill.zero).1.toProto), none), w2)) ∧
      (∀ records : List portfolio_grpc.Skill,
        ((newSkillsDBRepository skillsDB).ListSkills ctx w).1.1 = some records →
        records = (rows.rows.map fun row => (row.Scan pgSkill.zero).1.toProto) ∧
          records.length = rows.rows.length ∧
          (rows.rows.length ≤ 1000 → records.length ≤ 1000))) ∧
    -- experiences
    (∀ (rows : Rows pgExperience) (w2 : W),
      experiencesDB.QueryContext ctx
          (str ("\n\t\tSELECT id,title,description,company_name,company_url,company_logo_url," ++
            "languages,frameworks,started_at,finished_at as ended_at,created_at,updated_at" ++
            "\n\t\tFROM experiences e\n\t\tORDER BY e.started_at DESC\n\t\tLIMIT 1000")) w =
        (.ok rows, w2) →
      (rows.Err = none → (∀ row ∈ rows.rows, (row.Scan pgExperience.zero).2 = none) →
        (newExperiencesDBRepository experiencesDB).ListExperiences jsonUnmarshal ctx w =
          ((some (rows.rows.map fun row =>
              (row.Scan pgExperience.zero).1.toProto jsonUnmarshal), none), w2)) ∧
      (∀ records : List portfolio_grpc.Experience,
        ((newExperiencesDBRepository experiencesDB).ListExperiences jsonUnmarshal ctx w).1.1 =
          some records →
        records = (rows.rows.map fun row =>
            (row.Scan pgExperience.zero).1.toProto jsonUnmarshal) ∧
          records.length = rows.rows.length ∧
          (rows.rows.length ≤ 1000 → records.length ≤ 1000) ∧
          (∀ before : Option Date → Option Date → Prop,
            rows.rows.Pairwise (fun r1 r2 =>
              before (TimeToProtoDate (r1.Scan pgExperience.zero).1.StartedAt)
                (TimeToProtoDate (r2.Scan pgExperience.zero).1.StartedAt)) →
            records.Pairwise (fun x y => before x.StartedAt y.StartedAt)) ∧
          (rows.rows.Pairwise (fun r1 r2 =>
              startDateDescending (TimeToProtoDate (r1.Scan pgExperience.zero).1.StartedAt)
                (TimeToProtoDate (r2.Scan pgExperience.zero).1.StartedAt)) →
            records.Pairwise (fun x y => startDateDescending x.StartedAt y.StartedAt)))) ∧
    -- educations
    (∀ (rows : Rows pgEducation) (w2 : W),
      educationsDB.QueryContext ctx
          (str ("\n\t\tSELECT id,title,institution_name,institution_url,started_at," ++
            "finished_at as ended_at,created_at,updated_at" ++
            "\n\t\tFROM education e\n\t\tORDER BY e.started_at DESC\n\t\tLIMIT 1000")) w =
        (.ok rows, w2) →
      (rows.Err = none → (∀ row ∈ rows.rows, (row.Scan pgEducation.zero).2 = none) →
        (newEducationsDBRepository educationsDB).ListEducations ctx w =
          ((some (rows.rows.map fun row => (row.Scan pgEducation.zero).1.toProto), none),
            w2)) ∧
      (∀ records : List portfolio_grpc.Education,
        ((newEducationsDBRepository educationsDB).ListEducations ctx w).1.1 = some records →
        records = (rows.rows.map fun row => (row.Scan pgEducation.zero).1.toProto) ∧
          records.length = rows.rows.length ∧
          (rows.rows.length ≤ 1000 → records.length ≤ 1000) ∧
          (∀ before : Option Date → Option Date → Prop,
            rows.rows.Pairwise (fun r1 r2 =>
              before (TimeToProtoDate (r1.Scan pgEducation.zero).1.StartedAt)
                (TimeToProtoDate (r2.Scan pgEducation.zero).1.StartedAt)) →
            records.Pairwise (fun x y => before x.StartedAt y.StartedAt)) ∧
          (rows.rows.Pairwise (fun r1 r2 =>
              startDateDescending (TimeToProtoDate (r1.Scan pgEducation.zero).1.StartedAt)
                (TimeToProtoDate (r2.Scan pgEducation.zero).1.StartedAt)) →
            records.Pairwise (fun x y => startDateDescending x.StartedAt y.StartedAt)))) := by
  obtain ⟨hs1, hs2, hs3⟩ := list_statements
  refine ⟨⟨hs1, hs2, hs3⟩, ?_, ?_, ?_⟩
  · intro rows w2 hq
    rw [← hs1] at hq
    refine ⟨?_, ?_⟩
    · intro herr hrows
      have hloop := scanLoop_ok decodeSkill (fun row => (row.Scan pgSkill.zero).1.toProto)
        rows.rows [] (fun row hr => (decodeSkill_cases row).2.1 (hrows row hr))
      simp only [skillsRepositoryImpl.ListSkills, newSkillsDBRepository, hq, hloop, herr,
        List.nil_append]
    · intro records h
      have hr := ListSkills_records skillsDB ctx w w2 rows records hq h
      have hlen : records.length = rows.rows.length := by rw [hr, List.length_map]
      exact ⟨hr, hlen, fun hle => hlen ▸ hle⟩
  · intro rows w2 hq
    rw [← hs2] at hq
    refine ⟨?_, ?_⟩
    · intro herr hrows
      have hloop := scanLoop_ok (decodeExperience jsonUnmarshal)
        (fun row => (row.Scan pgExperience.zero).1.toProto jsonUnmarshal)
        rows.rows [] (fun row hr => (decodeExperience_cases jsonUnmarshal row).2.1 (hrows row hr))
      simp only [experiencesRepositoryImpl.ListExperiences, newExperiencesDBRepository, hq,
        hloop, herr, List.nil_append]
    · intro records h
      have hr := ListExperiences_records experiencesDB jsonUnmarshal ctx w w2 rows records hq h
      have hlen : records.length = rows.rows.length := by rw [hr, List.length_map]
      have hord : ∀ before : Option Date → Option Date → Prop,
          rows.rows.Pairwise (fun r1 r2 =>
            before (TimeToProtoDate (r1.Scan pgExperience.zero).1.StartedAt)
              (TimeToProtoDate (r2.Scan pgExperience.zero).1.StartedAt)) →
          records.Pairwise (fun x y => before x.StartedAt y.StartedAt) := by
        intro before hp
        rw [hr, List.pairwise_map]
        simpa only [experience_startedAt] using hp
      exact ⟨hr, hlen, fun hle => hlen ▸ hle, hord, hord startDateDescending⟩
  · intro rows w2 hq
    rw [← hs3] at hq
    refine ⟨?_, ?_⟩
    · intro herr hrows
      have hloop := scanLoop_ok decodeEducation
        (fun row => (row.Scan pgEducation.zero).1.toProto)
        rows.rows [] (fun row hr => (decodeEducation_cases row).2.1 (hrows row hr))
      simp only [educationsRepositoryImpl.ListEducations, newEducationsDBRepository, hq, hloop,
        herr, List.nil_append]
    · intro records h
      have hr := ListEducations_records educationsDB ctx w w2 rows records hq h
      have hlen : records.length = rows.rows.length := by rw [hr, List.length_map]
      have hord : ∀ before : Option Date → Option Date → Prop,
          rows.rows.Pairwise (fun r1 r2 =>
            before (TimeToProtoDate (r1.Scan pgEducation.zero).1.StartedAt)
              (TimeToProtoDate (r2.Scan pgEducation.zero).1.StartedAt)) →
          records.Pairwise (fun x y => before x.StartedAt y.StartedAt) := by
        intro before hp
        rw [hr, List.pairwise_map]
        simpa only [education_startedAt] using hp
      exact ⟨hr, hlen, fun hle => hlen ▸ hle, hord, hord startDateDescending⟩

/-- C14 (amended) on a skills table of two rows, which yields two records in the
order of the rows, and on an experiences table of two rows delivered in
descending order of start date, whose records are in that order. -/
theorem list_rows_witness :
    (newSkillsDBRepository twoSkillsDB).ListSkills () () =
        ((some [{ Id := 2, Title := str "Go", Level := 3, CreatedAt := none, UpdatedAt := none },
            { Id := 1, Title := str "SQL", Level := 3, CreatedAt := none, UpdatedAt := none }],
          none), ()) ∧
      List.Pairwise (fun x y : portfolio_grpc.Experience =>
          startDateDescending x.StartedAt y.StartedAt)
        ([experienceRow 8 2024 2 29, experienceRow 5 2019 7 1].map fun row =>
          (row.Scan pgExperience.zero).1.toProto (fun _ => ([], none))) :=
  ⟨((list_rows twoSkillsDB twoExperiencesDB
      { QueryContext := fun _ _ w => (.ok { rows := [], Err := none }, w)
        QueryRowContext := fun _ _ _ w => ({ Scan := fun r => (r, none) }, w) }
      (fun _ => ([], none)) () ()).2.1
      { rows := [skillRow 2 (str "Go"), skillRow 1 (str "SQL")], Err := none } () rfl).1 rfl
      (by intro row hrow; simp only [List.mem_cons, List.mem_singleton, List.not_mem_nil,
            or_false] at hrow; rcases hrow with h | h <;> subst h <;> rfl),
    (((list_rows twoSkillsDB twoExperiencesDB
      { QueryContext := fun _ _ w => (.ok { rows := [], Err := none }, w)
        QueryRowContext := fun _ _ _ w => ({ Scan := fun r => (r, none) }, w) }
      (fun _ => ([], none)) () ()).2.2.1
      { rows := [experienceRow 8 2024 2 29, experienceRow 5 2019 7 1], Err := none } () rfl).2
      ([experienceRow 8 2024 2 29, experienceRow 5 2019 7 1].map
        fun row : rowScanner pgExperience =>
          (row.Scan pgExperience.zero).1.toProto (fun _ => ([], none))) (by rfl)).2.2.2.2
      (by simp only [List.pairwise_cons, List.mem_singleton, List.not_mem_nil, forall_eq,
            List.Pairwise.nil, and_true, IsEmpty.forall_iff, implies_true]
          decide)⟩

/-! ### The technologies of an experience -/

/-- C19 (as stated, refuted): the languages value `["go",1]` does not decode
(`json.Unmarshal` returns an error), yet the technologies are not empty: they
are what `json.Unmarshal` left in the slice. -/
theorem technologies_of_mistyped_languages :
    (jsonUnmarshalCompact (str "[\"go\",1]")).2 = some jsonTypeError ∧
      (pgExperience.toProto jsonUnmarshalCompact
        { pgExperience.zero with Languages := str "[\"go\",1]" }).Technologies =
        [str "go", []] := by
  decide

/-- C19 (amended): two experience rows that differ only in their frameworks
column map to equal records. The technologies of the record are exactly the
slice `json.Unmarshal` leaves for the languages column, whether or not it
returns an error (so they are empty whenever it leaves the slice empty); the
frameworks column contributes nothing; and a row that scans always maps to a
record, never to an error, whatever `json.Unmarshal` returns. -/
theorem frameworks_never_contribute
    (jsonUnmarshal : GoString → List GoString × Option GoError) (p q : pgExperience)
    (row : rowScanner pgExperience) (h : { p with Frameworks := q.Frameworks } = q) :
    p.toProto jsonUnmarshal = q.toProto jsonUnmarshal ∧
      (p.toProto jsonUnmarshal).Technologies = (jsonUnmarshal p.Languages).1 ∧
      (∀ frameworks : GoString,
        ({ p with Frameworks := frameworks } : pgExperience).toProto jsonUnmarshal =
          p.toProto jsonUnmarshal) ∧
      ((row.Scan pgExperience.zero).2 = none →
        decodeExperience jsonUnmarshal row =
          .ok ((row.Scan pgExperience.zero).1.toProto jsonUnmarshal)) := by
  refine ⟨?_, ?_, ?_, (decodeExperience_cases jsonUnmarshal row).2.1⟩
  · rw [← h]
    simp [pgExperience.toProto]
  · simp [pgExperience.toProto]
  · intro frameworks
    simp [pgExperience.toProto]

/-- C19 (amended) at two rows that differ in the frameworks column only. -/
theorem frameworks_never_contribute_witness :
    pgExperience.toProto jsonUnmarshalCompact
        { pgExperience.zero with Languages := str "[\"go\"]", Frameworks := str "[\"gin\"]" } =
      pgExperience.toProto jsonUnmarshalCompact
        { pgExperience.zero with Languages := str "[\"go\"]", Frameworks := str "oops" } :=
  (frameworks_never_contribute jsonUnmarshalCompact
    { pgExperience.zero with Languages := str "[\"go\"]", Frameworks := str "[\"gin\"]" }
    { pgExperience.zero with Languages := str "[\"go\"]", Frameworks := str "oops" }
    { Scan := fun r => (r, none) } rfl).1

end repositories
